import Mathlib

/-!
Verification of the interlayer tool-clustering scheduler of this PrusaSlicer
fork, as implemented in src/libslic3r/GCode.cpp:

* the Node Store construction and the main greedy batching loop of
  GCode::layer_batch_labeling (the while loop at the UPD MAIN ALGORITHM banner),
* the batch tagging post-pass (ANALYZE BATCHES),
* the object/support Schedule Merger (COMBINE ... INTO A FINAL SINGLE MAP),
* the Wipe-Tower Planner GCode::ATC_plan_wipe_toolchange2.

The linked-list container class atc_linked_list_UPD and its node struct
printing_piece_UPD are declared in GCode.hpp, which is not part of the sources
at hand; their operations (append_node, node_search, get_node, get_count) are
modelled from the specification of the Schedule Node Store: append keeps
creation order, node_search is a linear scan returning the first match, and
state is mutated through the returned node.  The geometry oracle
(ATC_check_region_intersection2 and friends, already divided by 1e10 at the
call sites) and the layer heights are abstracted as functions supplied by the
environment, exactly as they are read off the Print object in the C++ code.

Quantities held in C++ doubles (heights, areas, overlaps, print heights and
the two thresholds) are modelled as integers in a fixed unit (one tenth of a
millimetre for heights, an arbitrary fixed area unit for overlaps): the
algorithm only adds such quantities, multiplies them by integers and compares
them, so any finite rational-valued instance can be brought to this form by
clearing denominators without changing any comparison, and the model stays
fully executable.
-/

namespace ATCSched

/-- One schedule node, mirroring struct printing_piece_UPD field by field
(the fields are those passed to append_node throughout GCode.cpp).  C++ ints
that can legitimately hold -1 markers (Rlayer, Blayer, region, batch) are
modelled as Int. -/
structure PrintingPieceUPD where
  number : Nat
  print_z : Int
  object : Bool
  support : Bool
  Rlayer : Int
  Blayer : Int
  region : Int
  area : Int
  perimeter : Int
  state : Bool
  batch : Int
  need_wipe : Bool
  region_intersection : Int
  deriving Repr, DecidableEq

/-- Key test used by the two-argument node_search: batch-layer and region. -/
def node_key_eq (p : PrintingPieceUPD) (b r : Int) : Bool :=
  p.Blayer == b && p.region == r

/-- Modelled from the spec: node_search(head, Blayer, region) of the Node Store
class (declared outside the given sources) is a linear scan over the list in
creation order returning the first node with the given key, or null. -/
def node_search (l : List PrintingPieceUPD) (b r : Int) : Option PrintingPieceUPD :=
  l.find? (fun p => node_key_eq p b r)

/-- Modelled from the spec: node_search(head, 0), the firstUnprocessed query:
first node in creation order whose state is still 0. -/
def node_search_state0 (l : List PrintingPieceUPD) : Option PrintingPieceUPD :=
  l.find? (fun p => p.state == false)

/-- Modelled from the spec: writing state = 1 through the node pointer returned
by node_search mutates the first node carrying the key. -/
def set_state1 : List PrintingPieceUPD → Int → Int → List PrintingPieceUPD
  | [], _, _ => []
  | p :: t, b, r =>
    if node_key_eq p b r then { p with state := true } :: t
    else p :: set_state1 t b r

/-- The data the main loop reads from the Print object and its configuration:
number_of_colors, max_layers_in_object, per-layer heights, the geometry oracle
(overlap candB candR curB color is ATC_check_region_intersection2 of the
candidate region footprint at layer candB against region color at layer curB,
already divided by 1e10), region area and perimeter, and the two configured
thresholds. -/
structure SchedEnv where
  number_of_colors : Nat
  max_layers_in_object : Nat
  layer_height : Int → Int
  overlap : Int → Int → Int → Int → Int
  area_of : Int → Int → Int
  perimeter_of : Int → Int → Int
  atc_safe_height : Int
  critical_intersection : Int

/-- The mutable state of the main while loop.  last_node is the cursor pointer
into printing_map_initial, identified by its (Blayer, region) key, which is how
the C++ code addresses nodes; region_area and region_perimeter are the two
file-local floats that keep their last written value between iterations.
accept_log is a ghost field recording which batched entries were appended by
the continuation-accept site (the append at the no-intersections branch); it
changes no observable behaviour and only names the accept events for the
statements below. -/
structure SchedState where
  printing_map_initial : List PrintingPieceUPD
  printing_map_batched : List PrintingPieceUPD
  last_node : Option (Int × Int)
  atc_running_height : Int
  atc_appending_node_number : Nat
  region_area : Int
  region_perimeter : Int
  accept_log : List (Int × Int)
  deriving Repr, DecidableEq

/-- The state at the top of the main loop: empty batched map, null cursor,
zero accumulator, as set up just before the UPD MAIN ALGORITHM banner. -/
def init_state (store : List PrintingPieceUPD) : SchedState :=
  { printing_map_initial := store
    printing_map_batched := []
    last_node := none
    atc_running_height := 0
    atc_appending_node_number := 0
    region_area := 0
    region_perimeter := 0
    accept_log := [] }

/-- Step 2 of the loop: if the selected node still has state 0, append it to
the batched map (with the stale region_area, region_perimeter and the
identically-zero intersection_self), set last_node to it, mark it processed in
the initial map, and add its layer height to the running accumulator. -/
def apply_head (env : SchedEnv) (s : SchedState) (node : PrintingPieceUPD) : SchedState :=
  if node.state = false then
    { s with
      printing_map_batched := s.printing_map_batched ++
        [{ number := s.atc_appending_node_number
           print_z := node.print_z
           object := true
           support := false
           Rlayer := node.Rlayer
           Blayer := node.Blayer
           region := node.region
           area := s.region_area
           perimeter := s.region_perimeter
           state := true
           batch := 0
           need_wipe := false
           region_intersection := 0 }]
      atc_appending_node_number := s.atc_appending_node_number + 1
      last_node := some (node.Blayer, node.region)
      printing_map_initial := set_state1 s.printing_map_initial node.Blayer node.region
      atc_running_height := s.atc_running_height + env.layer_height node.Blayer }
  else s

/-- The first color loop: count the colors at the current batch layer, other
than the current region, whose node exists, whose overlap with the candidate
exceeds the critical intersection, and which are still unprocessed. -/
def count_blockers (env : SchedEnv) (store : List PrintingPieceUPD)
    (curB r candB : Int) : Nat :=
  (List.range env.number_of_colors).countP (fun c =>
    match node_search store curB (Int.ofNat c) with
    | some p =>
        (Int.ofNat c != r) &&
        decide (env.critical_intersection < env.overlap candB r curB (Int.ofNat c)) &&
        (p.state == false)
    | none => false)

/-- The second color loop, acceptance side: with zero blockers overall, the
loop accepts at the first color whose node exists at the current batch layer,
differs from the current region, and whose overlap with the candidate is at or
below the critical intersection. -/
def find_accept_color (env : SchedEnv) (store : List PrintingPieceUPD)
    (curB r candB : Int) : Option Nat :=
  (List.range env.number_of_colors).find? (fun c =>
    (node_search store curB (Int.ofNat c)).isSome &&
    (Int.ofNat c != r) &&
    decide (env.overlap candB r curB (Int.ofNat c) ≤ env.critical_intersection))

/-- The second color loop, fall-through side: every color whose node is absent
at the current batch layer nulls last_node and continues, so after a full scan
without accept or break the cursor is cleared exactly when some color was
absent. -/
def any_absent_color (env : SchedEnv) (store : List PrintingPieceUPD) (curB : Int) : Bool :=
  (List.range env.number_of_colors).any (fun c =>
    (node_search store curB (Int.ofNat c)).isNone)

/-- The continuation acceptance: append the candidate node to the batched map
with freshly computed area and perimeter and the overlap against the accepting
color as region_intersection, advance the cursor to the candidate, add the
current layer height (the C++ adds layers()[current_Blayer_idx]->height here)
to the accumulator, and mark the candidate processed. -/
def apply_accept (env : SchedEnv) (s1 : SchedState) (curB r candB : Int) (c : Nat)
    (cand : PrintingPieceUPD) : SchedState :=
  { s1 with
    printing_map_batched := s1.printing_map_batched ++
      [{ number := s1.atc_appending_node_number
         print_z := cand.print_z
         object := true
         support := false
         Rlayer := cand.Rlayer
         Blayer := candB
         region := r
         area := env.area_of candB r
         perimeter := env.perimeter_of candB r
         state := true
         batch := 0
         need_wipe := false
         region_intersection := env.overlap candB r curB (Int.ofNat c) }]
    atc_appending_node_number := s1.atc_appending_node_number + 1
    last_node := some (candB, r)
    atc_running_height := s1.atc_running_height + env.layer_height curB
    printing_map_initial := set_state1 s1.printing_map_initial candB r
    region_area := env.area_of candB r
    region_perimeter := env.perimeter_of candB r
    accept_log := s1.accept_log ++ [(candB, r)] }

/-- The body guarded by the candidate-exists check: count blockers, then either
break on an over-threshold unprocessed neighbour (nulling the cursor), accept
the candidate at the first qualifying color, or fall through (nulling the
cursor when some color node was absent at the current batch layer). -/
def inner_block (env : SchedEnv) (s1 : SchedState) (curB r candB : Int) : SchedState :=
  if count_blockers env s1.printing_map_initial curB r candB ≠ 0 then
    { s1 with last_node := none }
  else
    match find_accept_color env s1.printing_map_initial curB r candB with
    | some c =>
        match node_search s1.printing_map_initial candB r with
        | some cand => apply_accept env s1 curB r candB c cand
        | none => { s1 with last_node := none }
    | none =>
        if any_absent_color env s1.printing_map_initial curB then
          { s1 with last_node := none }
        else s1

/-- Result of one iteration of the main while loop: the loop guard failed
(done), the head search dereferenced a null node (stuck, the model of the C++
null-pointer dereference when no unprocessed node remains), or the next
state. -/
inductive StepRes where
  | done
  | stuck
  | next (s : SchedState)
  deriving Repr, DecidableEq

/-- The node the iteration works on: the cursor if non-null, else the first
node with state 0. -/
def sched_select (s : SchedState) : Option PrintingPieceUPD :=
  match s.last_node with
  | some (b, r) => node_search s.printing_map_initial b r
  | none => node_search_state0 s.printing_map_initial

/-- The tail of one iteration: the missing-candidate continue (which nulls the
cursor and skips the height check), then the height check that resets the
accumulator and nulls the cursor. -/
def sched_post (env : SchedEnv) (t : SchedState) (candB r : Int) : StepRes :=
  if (env.max_layers_in_object : Int) ≤ candB ∨
      node_search t.printing_map_initial candB r = none then
    .next { t with last_node := none }
  else if env.atc_safe_height ≤ t.atc_running_height then
    .next { t with atc_running_height := 0, last_node := none }
  else
    .next t

/-- The middle of one iteration on the selected node: the conditional head
append followed by the candidate/intersection block, the latter guarded by the
candidate being present and within the stack bound. -/
def sched_mid (env : SchedEnv) (s : SchedState) (node : PrintingPieceUPD) : SchedState :=
  if (node_search (apply_head env s node).printing_map_initial (node.Blayer + 1)
        node.region).isSome ∧
      node.Blayer + 1 < (env.max_layers_in_object : Int) then
    inner_block env (apply_head env s node) node.Blayer node.region (node.Blayer + 1)
  else apply_head env s node

/-- One full iteration of the while loop of GCode::layer_batch_labeling: guard
(get_count comparison), node selection, conditional head append, the
candidate/intersection block, then the tail checks. -/
def sched_step (env : SchedEnv) (s : SchedState) : StepRes :=
  if s.printing_map_batched.length < s.printing_map_initial.length then
    match sched_select s with
    | none => .stuck
    | some node => sched_post env (sched_mid env s node) (node.Blayer + 1) node.region
  else .done

/-- Run the main loop with explicit fuel; none means the fuel ran out or the
loop got stuck on a null node. -/
def sched_run (env : SchedEnv) : Nat → SchedState → Option SchedState
  | 0, _ => none
  | n + 1, s =>
    match sched_step env s with
    | .done => some s
    | .stuck => none
    | .next s2 => sched_run env n s2

/-- The main loop terminates from a state when some amount of fuel reaches the
failed loop guard. -/
def SchedTerminates (env : SchedEnv) (s : SchedState) : Prop :=
  ∃ n sf, sched_run env n s = some sf

/-!  The ANALYZE BATCHES post-pass: walk the batched map in order with
running_batch starting at 0 and last_region starting at 0; whenever the region
differs from last_region, increment running_batch and count a tool change;
write running_batch into the node either way.  -/

/-- The batch tagging walk; arguments are the remaining nodes, running_batch,
last_region and the tool-change counter. -/
def analyze_batches_from : List PrintingPieceUPD → Int → Int → Nat →
    (List PrintingPieceUPD × Nat)
  | [], _, _, tc => ([], tc)
  | p :: t, running, lastR, tc =>
    if p.region != lastR then
      let out := analyze_batches_from t (running + 1) p.region (tc + 1)
      ({ p with batch := running + 1 } :: out.1, out.2)
    else
      let out := analyze_batches_from t running lastR tc
      ({ p with batch := running } :: out.1, out.2)

/-- The full tagging pass as run on the batched map. -/
def analyze_batches (l : List PrintingPieceUPD) : List PrintingPieceUPD × Nat :=
  analyze_batches_from l 0 0 0

/-!  The Schedule Merger (COMBINE OBJECT AND SUPPORT PIECES INTO A FINAL
SINGLE MAP): walk the batched map; after copying each object node, scan the
support map for the first node with state 0 whose Rlayer is at most one above
the object node's Rlayer; if found, copy it in (inheriting the object's
region, batch, need_wipe and region_intersection) and mark it placed.  The
copies take the stale file-local region_area and region_perimeter values.  -/

/-- Scan of the support map: return the first node with state 0 satisfying
support_Rlayer - object_Rlayer <= 1 together with the support map where that
node is marked placed. -/
def pick_support : List PrintingPieceUPD → Int →
    (Option PrintingPieceUPD × List PrintingPieceUPD)
  | [], _ => (none, [])
  | p :: t, objR =>
    if p.state = false ∧ p.Rlayer - objR ≤ 1 then
      (some p, { p with state := true } :: t)
    else
      let out := pick_support t objR
      (out.1, p :: out.2)

/-- The object copy appended to FINAL_MAP for a batched node. -/
def final_obj_entry (obj : PrintingPieceUPD) (cnt : Nat) (a pm : Int) : PrintingPieceUPD :=
  { number := cnt
    print_z := obj.print_z
    object := true
    support := false
    Rlayer := obj.Rlayer
    Blayer := obj.Blayer
    region := obj.region
    area := a
    perimeter := pm
    state := false
    batch := obj.batch
    need_wipe := obj.need_wipe
    region_intersection := obj.region_intersection }

/-- The support copy appended to FINAL_MAP after an object node: it keeps the
support node's print_z, Rlayer and Blayer but takes the object node's region,
batch, need_wipe and region_intersection. -/
def final_supp_entry (obj sp : PrintingPieceUPD) (cnt : Nat) (a pm : Int) : PrintingPieceUPD :=
  { number := cnt
    print_z := sp.print_z
    object := false
    support := true
    Rlayer := sp.Rlayer
    Blayer := sp.Blayer
    region := obj.region
    area := a
    perimeter := pm
    state := false
    batch := obj.batch
    need_wipe := obj.need_wipe
    region_intersection := obj.region_intersection }

/-- The merger walk: returns FINAL_MAP together with the support map after the
placement marks. -/
def FINAL_MAP_build : List PrintingPieceUPD → List PrintingPieceUPD → Int → Int → Nat →
    (List PrintingPieceUPD × List PrintingPieceUPD)
  | [], supp, _, _, _ => ([], supp)
  | obj :: rest, supp, a, pm, cnt =>
    match pick_support supp obj.Rlayer with
    | (some sp, supp2) =>
        let out := FINAL_MAP_build rest supp2 a pm (cnt + 2)
        (final_obj_entry obj cnt a pm :: final_supp_entry obj sp (cnt + 1) a pm :: out.1,
         out.2)
    | (none, supp2) =>
        let out := FINAL_MAP_build rest supp2 a pm (cnt + 1)
        (final_obj_entry obj cnt a pm :: out.1, out.2)

/-!  The Wipe-Tower Planner, GCode::ATC_plan_wipe_toolchange2: walk the final
map; for nodes with Blayer different from -1, when the region differs from
prev_region_idx, advance the wipe-tower index and the brick index, register a
tool change at print_z = 0.2 * atc_wipe_plan_layer, set need_wipe on the node
one position earlier, and advance the wipe-tower layer when the brick index
reaches total bricks - 1.  get_node(printing_node_idx - 1) at index -1 has no
node; the C++ writes through that null result, modelled here by the oob_write
flag with the write dropped.  -/

/-- One planned tool change as passed to WipeTower::plan_toolchange. -/
structure ToolChangeEvent where
  print_z : Int
  layer_height : Int
  old_tool : Int
  new_tool : Int
  volume : Int
  deriving Repr, DecidableEq

/-- Constructor shorthand for a planned tool change. -/
def mkToolChangeEvent (z lh ot nt v : Int) : ToolChangeEvent :=
  { print_z := z, layer_height := lh, old_tool := ot, new_tool := nt, volume := v }

/-- Result of the planner walk: the final map with the need_wipe updates, the
planned tool changes in order, the two counters, and whether a need_wipe write
targeted position -1. -/
structure PlannerResult where
  map : List PrintingPieceUPD
  events : List ToolChangeEvent
  tool_change_counter : Nat
  wipe_tower_idx : Nat
  brick_idx : Int
  plan_layer : Int
  oob_write : Bool
  deriving Repr, DecidableEq

/-- The hardcoded wiping layer height: the C++ literal is 0.2 mm; in the fixed
unit of the model (one tenth of a millimetre, see the file comment) it is 2. -/
def wiping_layer_height : Int := 2

/-- Set need_wipe on the node one position before the current one: the
processed prefix is carried in reverse, so the target is its head; an empty
prefix is the get_node(-1) case. -/
def write_prev_need_wipe : List PrintingPieceUPD → (List PrintingPieceUPD × Bool)
  | [] => ([], true)
  | p :: t => ({ p with need_wipe := true } :: t, false)

/-- The planner walk.  Arguments: total bricks (colors - 1), wiping volume,
remaining nodes, processed prefix in reverse, prev_region_idx, brick index,
plan layer, events so far, tool-change counter, wipe-tower index, oob flag. -/
def planner_loop (total : Int) (vol : Int) :
    List PrintingPieceUPD → List PrintingPieceUPD → Int → Int → Int →
    List ToolChangeEvent → Nat → Nat → Bool → PlannerResult
  | [], rev, _, brick, layer, ev, tc, wt, oob =>
    { map := rev.reverse, events := ev, tool_change_counter := tc,
      wipe_tower_idx := wt, brick_idx := brick, plan_layer := layer, oob_write := oob }
  | p :: rest, rev, prev, brick, layer, ev, tc, wt, oob =>
    if p.Blayer ≠ -1 then
      if p.region ≠ prev then
        planner_loop total vol rest (p :: (write_prev_need_wipe rev).1) p.region
          (if total - 1 ≤ brick + 1 then -1 else brick + 1)
          (if total - 1 ≤ brick + 1 then layer + 1 else layer)
          (ev ++ [mkToolChangeEvent (wiping_layer_height * layer) wiping_layer_height
                    prev p.region vol])
          (tc + 1) (wt + 1) (oob || (write_prev_need_wipe rev).2)
      else
        planner_loop total vol rest (p :: rev) p.region brick layer ev tc wt oob
    else
      planner_loop total vol rest (p :: rev) prev brick layer ev tc wt oob

/-- The planner as called on the final map: prev_region_idx starts at 0, the
brick index at -1, the plan layer at 1, with total bricks = colors - 1. -/
def ATC_plan_wipe_toolchange2 (colors : Nat) (vol : Int)
    (final : List PrintingPieceUPD) : PlannerResult :=
  planner_loop ((colors : Int) - 1) vol final [] 0 (-1) 1 [] 0 0 false

/-!  The Node Store construction: scan the layer stack; for every slot with an
object layer, append one node per region with printable geometry (nonempty
perimeters), Blayer counting only slots that have an object layer; separately
append one support node per slot with a support layer, with print_z -1,
Blayer -1, region -1.  -/

/-- Abstract description of collect_layers_to_print output as far as the store
construction reads it. -/
structure StackEnv where
  n_slots : Nat
  has_object : Nat → Bool
  n_regions : Nat
  present : Nat → Nat → Bool
  has_support : Nat → Bool
  obj_print_z : Nat → Int

/-- An object node as appended by the construction scan (area and perimeter
are the untouched zero-valued locals at that point). -/
def mkObjNode (num : Nat) (pz : Int) (rl bl reg : Int) : PrintingPieceUPD :=
  { number := num, print_z := pz, object := true, support := false, Rlayer := rl,
    Blayer := bl, region := reg, area := 0, perimeter := 0, state := false,
    batch := 0, need_wipe := false, region_intersection := 0 }

/-- A support node as appended by the support scan. -/
def mkSupportNode (num : Nat) (rl : Int) : PrintingPieceUPD :=
  { number := num, print_z := -1, object := false, support := true, Rlayer := rl,
    Blayer := -1, region := -1, area := 0, perimeter := 0, state := false,
    batch := -1, need_wipe := false, region_intersection := 0 }

/-- Nodes contributed by one slot of the stack scan. -/
def store_slot (st : StackEnv) (rl bl num : Nat) : List PrintingPieceUPD :=
  (((List.range st.n_regions).filter (fun r => st.present rl r)).enum).map
    (fun x => mkObjNode (num + x.1) (st.obj_print_z rl) (Int.ofNat rl) (Int.ofNat bl)
      (Int.ofNat x.2))

/-- The object store scan over the slots, carrying the slot index, the
batch-layer counter (incremented only on slots with an object layer) and the
node number. -/
def build_store_from (st : StackEnv) : Nat → Nat → Nat → Nat → List PrintingPieceUPD
  | 0, _, _, _ => []
  | n + 1, rl, bl, num =>
    if st.has_object rl then
      let slot := store_slot st rl bl num
      slot ++ build_store_from st n (rl + 1) (bl + 1) (num + slot.length)
    else
      build_store_from st n (rl + 1) bl num

/-- printing_map_initial as built by the construction scan. -/
def build_object_store (st : StackEnv) : List PrintingPieceUPD :=
  build_store_from st st.n_slots 0 0 0

/-- support_map as built by the support scan. -/
def build_support_store (st : StackEnv) : List PrintingPieceUPD :=
  (((List.range st.n_slots).filter (fun rl => st.has_support rl)).enum).map
    (fun x => mkSupportNode x.1 (Int.ofNat x.2))

/-!  Observation functions used by the statements below.  -/

/-- Number of nodes in a list carrying a given (Blayer, region) key. -/
def keyCount (l : List PrintingPieceUPD) (b r : Int) : Nat :=
  (l.filter (fun p => node_key_eq p b r)).length

/-- Number of processed nodes. -/
def processedCount (l : List PrintingPieceUPD) : Nat :=
  (l.filter (fun p => p.state)).length

/-- Number of nodes with need_wipe set. -/
def needWipeCount (l : List PrintingPieceUPD) : Nat :=
  (l.filter (fun p => p.need_wipe)).length

/-- Number of positions at which two consecutive entries have different
regions. -/
def pairChanges : List PrintingPieceUPD → Nat
  | [] => 0
  | [_] => 0
  | p :: q :: t => (if p.region = q.region then 0 else 1) + pairChanges (q :: t)

/-- Number of support entries of a list carrying a given Rlayer. -/
def supportCountRl (l : List PrintingPieceUPD) (rl : Int) : Nat :=
  (l.filter (fun p => p.support && p.Rlayer == rl)).length

/-- Number of not-yet-placed nodes of a support map carrying a given Rlayer. -/
def unplacedCountRl (l : List PrintingPieceUPD) (rl : Int) : Nat :=
  (l.filter (fun p => !p.state && p.Rlayer == rl)).length

/-- Number of object (non-support) entries of a list carrying a given key. -/
def objKeyCount (l : List PrintingPieceUPD) (b r : Int) : Nat :=
  (l.filter (fun p => !p.support && node_key_eq p b r)).length

/-- The maximal contiguous runs of entries sharing one batch id, in order. -/
def batch_runs : List PrintingPieceUPD → List (List PrintingPieceUPD)
  | [] => []
  | p :: t =>
    match batch_runs t with
    | [] => [[p]]
    | (q :: run) :: rest =>
        if p.batch == q.batch then (p :: q :: run) :: rest
        else [p] :: (q :: run) :: rest
    | [] :: rest => [p] :: rest

/-- Sum, over the entries of a run that were appended by the
continuation-accept site (as recorded in the ghost accept_log), of the layer
height the accept added to the running accumulator (the height of the layer
one below the accepted entry, which is what the C++ adds). -/
def batch_accept_sum (env : SchedEnv) (log : List (Int × Int))
    (run : List PrintingPieceUPD) : Int :=
  (run.filter (fun p => log.contains (p.Blayer, p.region))).foldl
    (fun a p => a + env.layer_height (p.Blayer - 1)) 0

/-- Extract the next state from a step result. -/
def step_next_state (r : StepRes) (dflt : SchedState) : SchedState :=
  match r with
  | .next s => s
  | _ => dflt

/-- The tail of GCode::layer_batch_labeling after the main loop: tag batches,
then merge the support map in; returns the scheduler final state, FINAL_MAP
and the support map after placement. -/
def pipeline_final (env : SchedEnv) (fuel : Nat) (store supp : List PrintingPieceUPD) :
    Option (SchedState × List PrintingPieceUPD × List PrintingPieceUPD) :=
  match sched_run env fuel (init_state store) with
  | none => none
  | some sf =>
    let tagged := (analyze_batches sf.printing_map_batched).1
    let fm := FINAL_MAP_build tagged supp sf.region_area sf.region_perimeter 0
    some (sf, fm.1, fm.2)

/-!  Concrete inputs used by the counterexamples and witnesses.  Heights are in
tenths of a millimetre; overlaps and thresholds in a fixed area unit.  -/

/-- Configuration with a single color and two object layers of height 0.2,
safe batch height 0.7, critical intersection 0.5. -/
def env1 : SchedEnv :=
  { number_of_colors := 1, max_layers_in_object := 2,
    layer_height := fun _ => 2, overlap := fun _ _ _ _ => 0,
    area_of := fun _ _ => 0, perimeter_of := fun _ _ => 0,
    atc_safe_height := 7, critical_intersection := 5 }

/-- Stack with two object layers, one region present on both. -/
def stack1 : StackEnv :=
  { n_slots := 2, has_object := fun _ => true, n_regions := 1,
    present := fun _ _ => true, has_support := fun _ => false,
    obj_print_z := fun rl => rl + 1 }

/-- The Node Store built from stack1. -/
def store1 : List PrintingPieceUPD := build_object_store stack1

/-- The state after the first iteration on store1: node 0 scheduled, cursor on
it, running height 0.2 below the safe height, with the candidate present so
the cursor is never cleared and nothing further is ever accepted. -/
def stall1 : SchedState := step_next_state (sched_step env1 (init_state store1)) (init_state store1)

/-- Three colors over eight object layers: region 0 on layers 0..6, region 1
on layers 1..7, region 2 only on layer 0; layer 0 has height 0.1, every other
layer 0.2; all overlaps zero. -/
def env4 : SchedEnv :=
  { number_of_colors := 3, max_layers_in_object := 8,
    layer_height := fun b => if b = 0 then 1 else 2, overlap := fun _ _ _ _ => 0,
    area_of := fun _ _ => 0, perimeter_of := fun _ _ => 0,
    atc_safe_height := 7, critical_intersection := 5 }

/-- The stack for env4. -/
def stack4 : StackEnv :=
  { n_slots := 8, has_object := fun _ => true, n_regions := 3,
    present := fun rl r =>
      (r == 0 && rl ≤ 6) || (r == 1 && 1 ≤ rl && rl ≤ 7) || (r == 2 && rl == 0),
    has_support := fun _ => false, obj_print_z := fun rl => rl + 1 }

/-- The Node Store built from stack4. -/
def store4 : List PrintingPieceUPD := build_object_store stack4

/-- The scheduler final state on store4 (the run terminates within 40
iterations). -/
def sf4 : SchedState := (sched_run env4 40 (init_state store4)).getD (init_state store4)

/-- Two colors over two object layers with only region 1 present, plus one
support layer at slot 0. -/
def env5 : SchedEnv :=
  { number_of_colors := 2, max_layers_in_object := 2,
    layer_height := fun _ => 2, overlap := fun _ _ _ _ => 0,
    area_of := fun _ _ => 0, perimeter_of := fun _ _ => 0,
    atc_safe_height := 7, critical_intersection := 5 }

/-- The stack for env5. -/
def stack5 : StackEnv :=
  { n_slots := 2, has_object := fun _ => true, n_regions := 2,
    present := fun _ r => r == 1, has_support := fun rl => rl == 0,
    obj_print_z := fun rl => rl + 1 }

/-- The Node Store built from stack5. -/
def store5 : List PrintingPieceUPD := build_object_store stack5

/-- The support store built from stack5. -/
def supp5 : List PrintingPieceUPD := build_support_store stack5

/-- The scheduler final state on store5. -/
def sf5 : SchedState := (sched_run env5 10 (init_state store5)).getD (init_state store5)

/-- The batched map of store5 after batch tagging. -/
def tagged5 : List PrintingPieceUPD := (analyze_batches sf5.printing_map_batched).1

/-- FINAL_MAP and the placed support store for store5. -/
def fm5 : List PrintingPieceUPD × List PrintingPieceUPD :=
  FINAL_MAP_build tagged5 supp5 sf5.region_area sf5.region_perimeter 0

/-- The planner result on the final map of store5. -/
def pl5 : PlannerResult := ATC_plan_wipe_toolchange2 2 140 fm5.1

/-- One object layer with one region, plus support layers at slots 0 and 1. -/
def env3 : SchedEnv :=
  { number_of_colors := 1, max_layers_in_object := 1,
    layer_height := fun _ => 2, overlap := fun _ _ _ _ => 0,
    area_of := fun _ _ => 0, perimeter_of := fun _ _ => 0,
    atc_safe_height := 7, critical_intersection := 5 }

/-- The stack for env3: slot 0 has the only object layer, both slots have
support layers. -/
def stack3 : StackEnv :=
  { n_slots := 2, has_object := fun rl => rl == 0, n_regions := 1,
    present := fun rl _ => rl == 0, has_support := fun _ => true,
    obj_print_z := fun rl => rl + 1 }

/-- The Node Store built from stack3. -/
def store3 : List PrintingPieceUPD := build_object_store stack3

/-- The support store built from stack3: units at Rlayer 0 and Rlayer 1. -/
def supp3 : List PrintingPieceUPD := build_support_store stack3

/-- The scheduler final state on store3. -/
def sf3 : SchedState := (sched_run env3 10 (init_state store3)).getD (init_state store3)

/-- FINAL_MAP and the placed support store for store3. -/
def fm3 : List PrintingPieceUPD × List PrintingPieceUPD :=
  FINAL_MAP_build (analyze_batches sf3.printing_map_batched).1 supp3
    sf3.region_area sf3.region_perimeter 0

/-- A Node Store holding a single node already marked processed. -/
def store8 : List PrintingPieceUPD := [{ mkObjNode 0 1 0 0 0 with state := true }]

/-!  Counterexamples.  -/

/-- If one iteration maps a state to itself, the loop never exits from it. -/
theorem sched_run_stall (env : SchedEnv) (s : SchedState)
    (h : sched_step env s = .next s) : ∀ n, sched_run env n s = none := by
  intro n
  induction n with
  | zero => rfl
  | succ n ih => simp only [sched_run, h]; exact ih

/-- Claim C1 counterexample: the main loop does not terminate for every input
Node Store.  On the store built from a one-color two-layer stack (store1) the
first iteration schedules node 0 and leaves the cursor on it; from then on the
candidate exists, no other color is present to accept a continuation, no node
is ever absent at the cursor layer (so the cursor is never cleared), and the
running height stays below the safe height, so the iteration maps the state to
itself and the batched map stays one node short forever. -/
theorem C1_counterexample : ¬ SchedTerminates env1 (init_state store1) := by
  have hstep : sched_step env1 (init_state store1) = .next stall1 := by decide
  have hfix : sched_step env1 stall1 = .next stall1 := by decide
  rintro ⟨n, sf, h⟩
  cases n with
  | zero => simp [sched_run] at h
  | succ n =>
    simp only [sched_run, hstep] at h
    rw [sched_run_stall env1 stall1 hfix n] at h
    exact Option.noConfusion h

/-- Claim C3 counterexample: not every support Unit is attached to the Final
Schedule exactly once.  On the stack with one object unit and two support
layers (Rlayer 0 and 1), the merger walk has only one object entry, places the
Rlayer 0 support after it, and the Rlayer 1 support is attached zero times. -/
theorem C3_counterexample :
    supp3.map (fun p => p.Rlayer) = [0, 1] ∧ supportCountRl fm3.1 1 = 0 := by decide

/-- Claim C4 counterexample: the continuation heights accepted inside one
maximal batch can exceed the safe batch height by more than one layer height.
Every layer of env4 has height at most 2 and the safe height is 7, yet on
store4 the region 1 batch (the tagged run of entries with batch id 2) receives
five continuation acceptances totalling 10 > 7 + 2: the accumulator is not
reset at batch breaks caused by missing candidates, carries across batches,
and one batch spans several cursor runs. -/
theorem C4_counterexample :
    (∀ b : Int, env4.layer_height b ≤ 2) ∧
    sched_run env4 40 (init_state store4) = some sf4 ∧
    ((batch_runs (analyze_batches sf4.printing_map_batched).1).map
        (fun run => batch_accept_sum env4 sf4.accept_log run)).any
      (fun q => decide (env4.atc_safe_height + 2 < q)) = true := by
  refine ⟨?_, by decide, by decide⟩
  intro b
  dsimp only [env4]
  split <;> norm_num

/-- Claim C5 counterexample: the three counts are not always equal.  On
store5 the final schedule is three region 1 entries, so it has no region
change between consecutive entries and the planner sets need_wipe on no entry,
yet prev_region_idx starts at 0 and the first entry has region 1, so the
planner still counts one tool change. -/
theorem C5_counterexample :
    needWipeCount pl5.map = 0 ∧ pairChanges fm5.1 = 0 ∧
    pl5.tool_change_counter = 1 := by decide

/-- Claim C6 counterexample: the support Unit inserted into the Final Schedule
does not carry regionIndex -1; the merger copies the anchor object Unit's
region into it (GCode.cpp passes obj_temp_piece->region for the support copy).
On store5 the inserted support entry carries region 1. -/
theorem C6_counterexample :
    fm5.1.map (fun p => (p.support, p.region)) = [(false, 1), (true, 1), (false, 1)] ∧
    ((1 : Int) = -1 → False) := by decide

/-- Claim C7 counterexample: the registered printZ is not wipingLayerHeight
times the current brick index.  On store5 a single tool change is registered;
the brick index at that moment is 0, so the claim requires printZ =
wiping_layer_height * 0 = 0, but the code computes printZ from
atc_wipe_plan_layer (still 1) and registers wiping_layer_height * 1 = 2. -/
theorem C7_counterexample :
    pl5.events.map (fun e => (e.print_z, e.old_tool, e.new_tool)) = [(2, 0, 1)] ∧
    ((2 : Int) = wiping_layer_height * 0 → False) := by decide

/-- Claim C8 counterexample: running the scheduler on a nonempty Node Store
whose every Unit is already processed is not a no-op: the loop guard passes
(the batched map is empty and shorter than the store), the state-0 search
returns null, and the C++ dereferences it; the model returns stuck. -/
theorem C8_counterexample :
    (∀ p ∈ store8, p.state = true) ∧ sched_step env3 (init_state store8) = .stuck := by
  exact ⟨by decide, by decide⟩

/-- Claim C9 counterexample: not every Unit makes the Unprocessed-to-Scheduled
transition exactly once.  After the full pipeline on stack3 the support unit
at Rlayer 1 was never placed by the merger (the scheduler and planner never
touch support states), so its state is still false: zero transitions. -/
theorem C9_counterexample :
    fm3.2.map (fun p => (p.Rlayer, p.state)) = [(0, true), (1, false)] := by decide

/-!  Theorems about one iteration.  -/

/-- The tail checks only ever null the cursor or reset the accumulator; every
other field of the state passes through unchanged. -/
theorem sched_post_next {env : SchedEnv} {t s2 : SchedState} {candB r : Int}
    (h : sched_post env t candB r = .next s2) :
    s2.accept_log = t.accept_log ∧
    s2.printing_map_batched = t.printing_map_batched ∧
    s2.printing_map_initial = t.printing_map_initial ∧
    s2.atc_appending_node_number = t.atc_appending_node_number := by
  unfold sched_post at h
  split at h
  · cases h; exact ⟨rfl, rfl, rfl, rfl⟩
  · split at h
    · cases h; exact ⟨rfl, rfl, rfl, rfl⟩
    · cases h; exact ⟨rfl, rfl, rfl, rfl⟩

/-- If the tail checks leave the accumulator at or above the safe height, they
null the cursor. -/
theorem sched_post_safe {env : SchedEnv} {t s2 : SchedState} {candB r : Int}
    (h : sched_post env t candB r = .next s2)
    (hge : env.atc_safe_height ≤ s2.atc_running_height) : s2.last_node = none := by
  unfold sched_post at h
  split at h
  · cases h; rfl
  · split at h
    · cases h; rfl
    · cases h
      exact absurd hge (by assumption)

/-- A step result of the next form comes from a selected node through the
middle of the iteration and the tail checks, with the loop guard passed. -/
theorem sched_step_next_form {env : SchedEnv} {s s2 : SchedState}
    (h : sched_step env s = .next s2) :
    ∃ node, sched_select s = some node ∧
      s.printing_map_batched.length < s.printing_map_initial.length ∧
      sched_post env (sched_mid env s node) (node.Blayer + 1) node.region = .next s2 := by
  unfold sched_step at h
  split at h
  next hguard =>
    cases hsel : sched_select s with
    | none => rw [hsel] at h; exact absurd h (by simp)
    | some node => rw [hsel] at h; exact ⟨node, rfl, hguard, h⟩
  next => exact absurd h (by simp)

/-- Claim C4, amended: after every iteration of the main loop, if the running
height accumulator is at or above safeBatchHeight then the cursor is cleared
(this is the forced break the reset implements); the reset itself happens only
when the end-of-iteration check runs, the check is skipped on the
missing-candidate path, the accumulator carries across batch breaks, and a
maximal batch may span several cursor runs, so the per-batch continuation
height sum may exceed safeBatchHeight by more than one layer height (see the
counterexample). -/
theorem C4_amended (env : SchedEnv) (s s2 : SchedState)
    (h : sched_step env s = .next s2)
    (hge : env.atc_safe_height ≤ s2.atc_running_height) : s2.last_node = none := by
  obtain ⟨node, -, -, hpost⟩ := sched_step_next_form h
  exact sched_post_safe hpost hge

/-- The key test ignores the state field. -/
theorem node_key_eq_set (p : PrintingPieceUPD) (b r : Int) :
    node_key_eq { p with state := true } b r = node_key_eq p b r := rfl

/-- The key test read as two equalities. -/
theorem node_key_eq_iff {p : PrintingPieceUPD} {b r : Int} :
    node_key_eq p b r = true ↔ p.Blayer = b ∧ p.region = r := by
  simp [node_key_eq]

/-- Unfolding node_search over a cons cell. -/
theorem node_search_cons (p : PrintingPieceUPD) (t : List PrintingPieceUPD) (b r : Int) :
    node_search (p :: t) b r = if node_key_eq p b r then some p else node_search t b r := by
  by_cases h : node_key_eq p b r = true
  · simp [node_search, List.find?_cons_of_pos, h]
  · simp only [Bool.not_eq_true] at h
    simp [node_search, List.find?_cons_of_neg, h]

/-- Marking one key leaves searches for any other key unchanged. -/
theorem node_search_set_state1_ne (l : List PrintingPieceUPD) (b r b2 r2 : Int)
    (hne : ¬(b2 = b ∧ r2 = r)) :
    node_search (set_state1 l b r) b2 r2 = node_search l b2 r2 := by
  induction l with
  | nil => rfl
  | cons p t ih =>
    unfold set_state1
    by_cases hk : node_key_eq p b r = true
    · have hpk := node_key_eq_iff.mp hk
      have hk2 : node_key_eq p b2 r2 = false := by
        rw [Bool.eq_false_iff]
        intro hc
        have hpc := node_key_eq_iff.mp hc
        exact hne ⟨by rw [← hpc.1, hpk.1], by rw [← hpc.2, hpk.2]⟩
      rw [if_pos hk, node_search_cons, node_search_cons, node_key_eq_set, hk2]
      simp
    · simp only [Bool.not_eq_true] at hk
      rw [if_neg (by simp [hk]), node_search_cons, node_search_cons, ih]

/-- The head append never touches the ghost accept log. -/
theorem apply_head_log (env : SchedEnv) (s : SchedState) (node : PrintingPieceUPD) :
    (apply_head env s node).accept_log = s.accept_log := by
  unfold apply_head; split <;> rfl

/-- The head append either leaves the initial map unchanged or marks the
selected node's key in it. -/
theorem apply_head_initial (env : SchedEnv) (s : SchedState) (node : PrintingPieceUPD) :
    (apply_head env s node).printing_map_initial = s.printing_map_initial ∨
    (apply_head env s node).printing_map_initial =
      set_state1 s.printing_map_initial node.Blayer node.region := by
  unfold apply_head; split
  · right; rfl
  · left; rfl

/-- The candidate/intersection block either leaves the accept log unchanged,
or it found zero blockers, an accepting color and the candidate node, and
performed the acceptance. -/
theorem inner_block_cases (env : SchedEnv) (s1 : SchedState) (curB r candB : Int) :
    (inner_block env s1 curB r candB).accept_log = s1.accept_log ∨
    (count_blockers env s1.printing_map_initial curB r candB = 0 ∧
     ∃ c cand, find_accept_color env s1.printing_map_initial curB r candB = some c ∧
       node_search s1.printing_map_initial candB r = some cand ∧
       inner_block env s1 curB r candB = apply_accept env s1 curB r candB c cand) := by
  by_cases hb : count_blockers env s1.printing_map_initial curB r candB = 0
  · cases hfc : find_accept_color env s1.printing_map_initial curB r candB with
    | none =>
      left
      unfold inner_block
      rw [if_neg (by simp [hb])]
      simp only [hfc]
      split <;> rfl
    | some c =>
      cases hcand : node_search s1.printing_map_initial candB r with
      | none =>
        left
        unfold inner_block
        rw [if_neg (by simp [hb])]
        simp only [hfc, hcand]
      | some cand =>
        right
        refine ⟨hb, c, cand, rfl, rfl, ?_⟩
        unfold inner_block
        rw [if_neg (by simp [hb])]
        simp only [hfc, hcand]
  · left
    unfold inner_block
    rw [if_pos hb]

/-- Claim C2: whenever the scheduler accepts a continuation from track L-1 to
track L for region r (recorded in the ghost accept log), every other color
whose node is present at track L-1 and still unprocessed has overlap with the
candidate at most the critical intersection area.  This is exactly what the
zero-blockers gate of the acceptance branch enforces. -/
theorem C2_theorem (env : SchedEnv) (s s2 : SchedState) (L r : Int)
    (h1 : sched_step env s = .next s2)
    (h2 : s2.accept_log = s.accept_log ++ [(L, r)]) :
    ∀ c : Nat, c < env.number_of_colors → Int.ofNat c ≠ r →
      ∀ p, node_search s.printing_map_initial (L - 1) (Int.ofNat c) = some p →
        p.state = false →
        env.overlap L r (L - 1) (Int.ofNat c) ≤ env.critical_intersection := by
  intro c hc hcr p hp hpstate
  obtain ⟨node, hsel, hguard, hpost⟩ := sched_step_next_form h1
  obtain ⟨hlog, -, -, -⟩ := sched_post_next hpost
  rw [h2] at hlog
  unfold sched_mid at hlog
  split at hlog
  case isFalse =>
    rw [apply_head_log] at hlog
    have := congrArg List.length hlog
    simp at this
  case isTrue hgate =>
    rcases inner_block_cases env (apply_head env s node) node.Blayer node.region
        (node.Blayer + 1) with hsame | ⟨hb, cc, cand, hfc, hcand, heq⟩
    · rw [hsame, apply_head_log] at hlog
      have := congrArg List.length hlog
      simp at this
    · rw [heq] at hlog
      have hlog2 : s.accept_log ++ [(L, r)] =
          s.accept_log ++ [(node.Blayer + 1, node.region)] := by
        simpa [apply_accept, apply_head_log] using hlog
      have hpair : L = node.Blayer + 1 ∧ r = node.region := by
        have h3 := List.append_cancel_left hlog2
        simp at h3
        exact h3
      have hB : node.Blayer = L - 1 := by omega
      have hR : node.region = r := hpair.2.symm
      -- the node search at the other color is the same before and after the
      -- conditional head marking
      have hsearch : node_search (apply_head env s node).printing_map_initial
          (L - 1) (Int.ofNat c) = some p := by
        rcases apply_head_initial env s node with hsame2 | hset
        · rw [hsame2]; exact hp
        · rw [hset, node_search_set_state1_ne]
          · exact hp
          · intro hcon
            exact hcr (by rw [hcon.2, hR])
      -- zero blockers means the blocking predicate fails at color c
      unfold count_blockers at hb
      rw [List.countP_eq_zero] at hb
      have hpred := hb c (List.mem_range.mpr hc)
      rw [hB, hR] at hpred
      rw [show L - 1 + 1 = L from by ring] at hpred
      rw [hsearch] at hpred
      by_contra hnle
      push_neg at hnle
      refine hpred ?_
      simp only [bne_iff_ne, ne_eq, decide_eq_true_eq, beq_iff_eq, Bool.and_eq_true,
        decide_eq_true_iff]
      exact ⟨⟨hcr, hnle⟩, hpstate⟩

theorem C4_amended_witness :
    { env1 with atc_safe_height := 0 }.atc_safe_height ≤
      (step_next_state (sched_step { env1 with atc_safe_height := 0 } (init_state store1))
        (init_state store1)).atc_running_height ∧
    (step_next_state (sched_step { env1 with atc_safe_height := 0 } (init_state store1))
        (init_state store1)).last_node = none :=
  ⟨by decide,
   C4_amended { env1 with atc_safe_height := 0 } (init_state store1)
     (step_next_state (sched_step { env1 with atc_safe_height := 0 } (init_state store1))
       (init_state store1)) (by decide) (by decide)⟩

/-- Witness for C2_theorem: the first iteration on store4 accepts the
continuation (1, 0); color 2 is present and unprocessed at track 0, and the
theorem yields that its overlap with the candidate is within the critical
intersection area. -/
theorem C2_witness :
    env4.overlap 1 0 (1 - 1) (Int.ofNat 2) ≤ env4.critical_intersection :=
  C2_theorem env4 (init_state store4)
    (step_next_state (sched_step env4 (init_state store4)) (init_state store4)) 1 0
    (by decide) (by decide) 2 (by decide) (by decide)
    (mkObjNode 1 1 0 0 2) (by decide) (by decide)

/-- Claim C8, amended: running the scheduler on the empty Node Store is a
no-op (the loop guard fails at once and the loop exits with nothing appended
and no state changed); but on a nonempty store whose every Unit is already
processed the guard passes, the state-0 search returns null, and the iteration
dereferences the null node instead of being a no-op. -/
theorem C8_amended (env : SchedEnv) (store : List PrintingPieceUPD)
    (hne : store ≠ []) (hall : ∀ p ∈ store, p.state = true) :
    sched_step env (init_state store) = .stuck ∧
    sched_step env (init_state []) = .done := by
  constructor
  · unfold sched_step
    rw [if_pos]
    · have hsel : sched_select (init_state store) = none := by
        unfold sched_select init_state node_search_state0
        simp only
        rw [List.find?_eq_none]
        intro p hp
        simp [hall p hp]
      rw [hsel]
    · simpa [init_state] using List.length_pos.mpr hne
  · unfold sched_step
    rw [if_neg]
    simp [init_state]

/-- Witness for C8_amended at the concrete fully processed store store8. -/
theorem C8_witness :
    sched_step env3 (init_state store8) = .stuck ∧
    sched_step env3 (init_state []) = .done :=
  C8_amended env3 store8 (by decide) (by decide)

/-!  Monotonicity of the processed flags (claim C9).  -/

/-- Relation between two node lists: every processed node position stays
processed, with position, key and everything but the state untouched or the
state raised to true. -/
def state_mono (l l2 : List PrintingPieceUPD) : Prop :=
  ∀ i p, l.get? i = some p → p.state = true → ∃ q, l2.get? i = some q ∧ q.state = true

/-- state_mono is reflexive. -/
theorem state_mono_refl (l : List PrintingPieceUPD) : state_mono l l :=
  fun i p hp hs => ⟨p, hp, hs⟩

/-- state_mono composes. -/
theorem state_mono_trans {l l2 l3 : List PrintingPieceUPD}
    (h1 : state_mono l l2) (h2 : state_mono l2 l3) : state_mono l l3 := by
  intro i p hp hs
  obtain ⟨q, hq, hqs⟩ := h1 i p hp hs
  exact h2 i q hq hqs

/-- Marking a key keeps every node in place, either unchanged or with its
state raised to true. -/
theorem set_state1_get (l : List PrintingPieceUPD) (b r : Int) (i : Nat) :
    (set_state1 l b r).get? i = l.get? i ∨
    ∃ p, l.get? i = some p ∧ (set_state1 l b r).get? i = some { p with state := true } := by
  induction l generalizing i with
  | nil => left; rfl
  | cons p t ih =>
    unfold set_state1
    by_cases hk : node_key_eq p b r = true
    · rw [if_pos hk]
      cases i with
      | zero => right; exact ⟨p, rfl, rfl⟩
      | succ j => left; rfl
    · rw [if_neg hk]
      cases i with
      | zero => left; rfl
      | succ j => exact ih j

/-- Marking a key is monotone on processed states. -/
theorem state_mono_set (l : List PrintingPieceUPD) (b r : Int) :
    state_mono l (set_state1 l b r) := by
  intro i p hp hs
  rcases set_state1_get l b r i with h | ⟨q, hq, hq2⟩
  · exact ⟨p, by rw [h, hp], hs⟩
  · rw [hp] at hq
    cases hq
    exact ⟨{ p with state := true }, hq2, rfl⟩

/-- The acceptance marks the candidate in the initial map. -/
theorem apply_accept_initial (env : SchedEnv) (s1 : SchedState) (curB r candB : Int)
    (c : Nat) (cand : PrintingPieceUPD) :
    (apply_accept env s1 curB r candB c cand).printing_map_initial =
      set_state1 s1.printing_map_initial candB r := rfl

/-- The candidate block either returns the state unchanged, only nulls the
cursor, or performs the acceptance with zero blockers. -/
theorem inner_block_main_cases (env : SchedEnv) (s1 : SchedState) (curB r candB : Int) :
    (inner_block env s1 curB r candB = s1 ∨
     inner_block env s1 curB r candB = { s1 with last_node := none }) ∨
    (count_blockers env s1.printing_map_initial curB r candB = 0 ∧
     ∃ c cand, find_accept_color env s1.printing_map_initial curB r candB = some c ∧
       node_search s1.printing_map_initial candB r = some cand ∧
       inner_block env s1 curB r candB = apply_accept env s1 curB r candB c cand) := by
  by_cases hb : count_blockers env s1.printing_map_initial curB r candB = 0
  · cases hfc : find_accept_color env s1.printing_map_initial curB r candB with
    | none =>
      left
      by_cases ha : any_absent_color env s1.printing_map_initial curB = true
      · right
        unfold inner_block
        rw [if_neg (by simp [hb])]
        simp only [hfc]
        rw [if_pos ha]
      · left
        unfold inner_block
        rw [if_neg (by simp [hb])]
        simp only [hfc]
        rw [if_neg ha]
    | some c =>
      cases hcand : node_search s1.printing_map_initial candB r with
      | none =>
        left; right
        unfold inner_block
        rw [if_neg (by simp [hb])]
        simp only [hfc, hcand]
      | some cand =>
        right
        refine ⟨hb, c, cand, rfl, rfl, ?_⟩
        unfold inner_block
        rw [if_neg (by simp [hb])]
        simp only [hfc, hcand]
  · left; right
    unfold inner_block
    rw [if_pos hb]

/-- The middle of an iteration changes the initial map only by zero, one or
two key markings. -/
theorem sched_mid_initial_mono (env : SchedEnv) (s : SchedState) (node : PrintingPieceUPD) :
    state_mono s.printing_map_initial (sched_mid env s node).printing_map_initial := by
  have h1 : state_mono s.printing_map_initial
      (apply_head env s node).printing_map_initial := by
    rcases apply_head_initial env s node with h | h
    · rw [h]; exact state_mono_refl _
    · rw [h]; exact state_mono_set _ _ _
  unfold sched_mid
  split
  · rcases inner_block_main_cases env (apply_head env s node) node.Blayer node.region
        (node.Blayer + 1) with (h | h) | ⟨-, c, cand, -, -, h⟩
    · rw [h]; exact h1
    · rw [h]; exact h1
    · rw [h, apply_accept_initial]
      exact state_mono_trans h1 (state_mono_set _ _ _)
  · exact h1

/-- One scheduler iteration never lowers any processed flag of the Node
Store. -/
theorem sched_step_initial_mono (env : SchedEnv) (s s2 : SchedState)
    (h : sched_step env s = .next s2) :
    state_mono s.printing_map_initial s2.printing_map_initial := by
  obtain ⟨node, -, -, hpost⟩ := sched_step_next_form h
  obtain ⟨-, -, hinit, -⟩ := sched_post_next hpost
  rw [hinit]
  exact sched_mid_initial_mono env s node

/-- The merger placement scan keeps every support node in place, either
unchanged or with its state raised to true. -/
theorem pick_support_get (l : List PrintingPieceUPD) (objR : Int) (i : Nat) :
    (pick_support l objR).2.get? i = l.get? i ∨
    ∃ p, l.get? i = some p ∧ (pick_support l objR).2.get? i = some { p with state := true } := by
  induction l generalizing i with
  | nil => left; rfl
  | cons p t ih =>
    unfold pick_support
    split
    · cases i with
      | zero => right; exact ⟨p, rfl, rfl⟩
      | succ j => left; rfl
    · cases i with
      | zero => left; rfl
      | succ j => exact ih j

/-- The merger placement scan is monotone on support states. -/
theorem state_mono_pick (l : List PrintingPieceUPD) (objR : Int) :
    state_mono l (pick_support l objR).2 := by
  intro i p hp hs
  rcases pick_support_get l objR i with h | ⟨q, hq, hq2⟩
  · exact ⟨p, by rw [h, hp], hs⟩
  · rw [hp] at hq
    cases hq
    exact ⟨{ p with state := true }, hq2, rfl⟩

/-- The whole merger walk is monotone on support states. -/
theorem FINAL_MAP_build_supp_mono (objs : List PrintingPieceUPD) :
    ∀ supp a pm cnt, state_mono supp (FINAL_MAP_build objs supp a pm cnt).2 := by
  induction objs with
  | nil => intro supp a pm cnt; exact state_mono_refl _
  | cons obj rest ih =>
    intro supp a pm cnt
    unfold FINAL_MAP_build
    cases hpick : pick_support supp obj.Rlayer with
    | mk picked supp2 =>
      have hmono : state_mono supp supp2 := by
        have := state_mono_pick supp obj.Rlayer
        rw [hpick] at this
        exact this
      cases picked with
      | some sp => exact state_mono_trans hmono (ih supp2 a pm (cnt + 2))
      | none => exact state_mono_trans hmono (ih supp2 a pm (cnt + 1))

/-- Writing need_wipe does not touch the state field. -/
theorem write_prev_state (rev : List PrintingPieceUPD) :
    (write_prev_need_wipe rev).1.map (fun p => p.state) = rev.map (fun p => p.state) := by
  cases rev <;> rfl

/-- The planner walk never changes any processed flag: the states of its
output map are the states of its input, prefix for prefix. -/
theorem planner_loop_states (total : Int) (vol : Int) :
    ∀ (rest rev : List PrintingPieceUPD) (prev brick layer : Int)
      (ev : List ToolChangeEvent) (tc wt : Nat) (oob : Bool),
      (planner_loop total vol rest rev prev brick layer ev tc wt oob).map.map
          (fun p => p.state) =
        rev.reverse.map (fun p => p.state) ++ rest.map (fun p => p.state) := by
  intro rest
  induction rest with
  | nil =>
    intro rev prev brick layer ev tc wt oob
    simp [planner_loop]
  | cons p t ih =>
    intro rev prev brick layer ev tc wt oob
    unfold planner_loop
    split
    · split
      · rw [ih]
        simp [write_prev_state]
      · rw [ih]
        simp
    · rw [ih]
      simp

/-- Claim C9, amended: the processed flag is monotone everywhere: no scheduler
iteration, merger placement or planner walk ever takes a Unit's processed
flag from true back to false (so each Unit transitions at most once); but it
is not true that every Unit transitions exactly once (see the
counterexample: a support Unit can stay Unprocessed forever). -/
theorem C9_amended :
    (∀ (env : SchedEnv) (s s2 : SchedState), sched_step env s = .next s2 →
      state_mono s.printing_map_initial s2.printing_map_initial) ∧
    (∀ (objs supp : List PrintingPieceUPD) (a pm : Int) (cnt : Nat),
      state_mono supp (FINAL_MAP_build objs supp a pm cnt).2) ∧
    (∀ (colors : Nat) (vol : Int) (final : List PrintingPieceUPD),
      (ATC_plan_wipe_toolchange2 colors vol final).map.map (fun p => p.state) =
        final.map (fun p => p.state)) := by
  refine ⟨sched_step_initial_mono, ?_, ?_⟩
  · intro objs supp a pm cnt
    exact FINAL_MAP_build_supp_mono objs supp a pm cnt
  · intro colors vol final
    unfold ATC_plan_wipe_toolchange2
    rw [planner_loop_states]
    rfl

/-- Witness for C9_amended: the scheduler part applied to the first iteration
on store8-like data: the single processed node of store8 stays processed after
a step on a store where one more node exists.  Here the first iteration on
store1 marks node 0; a second iteration keeps it processed. -/
theorem C9_witness :
    ∃ q, stall1.printing_map_initial.get? 0 = some q ∧ q.state = true :=
  C9_amended.1 env1 stall1 stall1 (by decide) 0
    ((stall1.printing_map_initial.get? 0).getD (mkObjNode 0 0 0 0 0))
    (by decide) (by decide)

/-!  The planner's out-of-range write (claim C10).  -/

/-- Once set, the planner's oob flag stays set. -/
theorem planner_loop_oob_sticky (total vol : Int) :
    ∀ (rest rev : List PrintingPieceUPD) (prev brick layer : Int)
      (ev : List ToolChangeEvent) (tc wt : Nat),
      (planner_loop total vol rest rev prev brick layer ev tc wt true).oob_write = true := by
  intro rest
  induction rest with
  | nil => intro rev prev brick layer ev tc wt; rfl
  | cons p t ih =>
    intro rev prev brick layer ev tc wt
    unfold planner_loop
    split
    · split
      · simp only [Bool.true_or]
        exact ih _ _ _ _ _ _ _
      · exact ih _ _ _ _ _ _ _
    · exact ih _ _ _ _ _ _ _

/-- With a nonempty processed prefix the planner never reaches position -1,
so the oob flag stays clear. -/
theorem planner_loop_no_oob (total vol : Int) :
    ∀ (rest rev : List PrintingPieceUPD) (prev brick layer : Int)
      (ev : List ToolChangeEvent) (tc wt : Nat),
      rev ≠ [] →
      (planner_loop total vol rest rev prev brick layer ev tc wt false).oob_write = false := by
  intro rest
  induction rest with
  | nil => intro rev prev brick layer ev tc wt _; rfl
  | cons p t ih =>
    intro rev prev brick layer ev tc wt hrev
    unfold planner_loop
    split
    · split
      · cases rev with
        | nil => exact absurd rfl hrev
        | cons q t0 =>
          simp only [write_prev_need_wipe, Bool.or_false]
          exact ih _ _ _ _ _ _ _ (by simp)
      · exact ih _ _ _ _ _ _ _ (by simp)
    · exact ih _ _ _ _ _ _ _ (by simp)

/-- Claim C10: on a Final Schedule whose first entry is an object unit, the
planner's write to the node one position before the first detected change is
out of range (position -1) exactly when that first unit's region differs from
the initial prev_region value 0; with first region 0 every need_wipe write
lands on a real node. -/
theorem C10_theorem (p : PrintingPieceUPD) (t : List PrintingPieceUPD)
    (colors : Nat) (vol : Int) (hobj : p.Blayer ≠ -1) :
    (ATC_plan_wipe_toolchange2 colors vol (p :: t)).oob_write = true ↔ p.region ≠ 0 := by
  unfold ATC_plan_wipe_toolchange2 planner_loop
  rw [if_pos hobj]
  by_cases hr : p.region ≠ 0
  · rw [if_pos hr]
    simp only [write_prev_need_wipe, Bool.or_true]
    constructor
    · intro _; exact hr
    · intro _
      exact planner_loop_oob_sticky _ _ _ _ _ _ _ _ _ _
  · rw [if_neg hr]
    push_neg at hr
    constructor
    · intro hoob
      rw [planner_loop_no_oob _ _ _ _ _ _ _ _ _ _ (by simp)] at hoob
      exact Bool.noConfusion hoob
    · intro hne
      exact absurd hr hne

/-- Witness for C10_theorem: the final map of store5 starts with an object
unit of region 1, and the planner indeed records the out-of-range write. -/
theorem C10_witness :
    (ATC_plan_wipe_toolchange2 2 140
      (((fm5.1.get? 0).getD (mkObjNode 0 0 0 0 0)) :: fm5.1.tail)).oob_write = true :=
  (C10_theorem ((fm5.1.get? 0).getD (mkObjNode 0 0 0 0 0)) fm5.1.tail 2 140
    (by decide)).mpr (by decide)

/-!  The wipe-tower layer closed form (claim C7).  -/

/-- Number of tool changes per wipe-tower layer: colorCount - 1 when that is
positive; with at most one color the brick index resets on every change. -/
def brick_modulus (total : Int) : Nat := max total.toNat 1

/-- The modulus is positive. -/
theorem brick_modulus_pos (total : Int) : 0 < brick_modulus total :=
  lt_of_lt_of_le Nat.zero_lt_one (le_max_right _ _)

/-- The planner's reset test, expressed through the modulus. -/
theorem reset_test_iff (total : Int) (n : Nat) :
    (total - 1 ≤ ((n % brick_modulus total : Nat) : Int)) ↔
      n % brick_modulus total = brick_modulus total - 1 := by
  have hlt : n % brick_modulus total < brick_modulus total :=
    Nat.mod_lt _ (brick_modulus_pos total)
  rcases le_or_lt total 0 with ht | ht
  · have h1 : brick_modulus total = 1 := by
      unfold brick_modulus
      rw [Int.toNat_of_nonpos ht]
      rfl
    rw [h1, Nat.mod_one]
    constructor <;> intro _ <;> omega
  · have h1 : brick_modulus total = total.toNat := by
      unfold brick_modulus
      exact max_eq_left (by omega)
    have hmt : ((brick_modulus total : Nat) : Int) = total := by rw [h1]; omega
    constructor
    · intro h; omega
    · intro h; omega

/-- Advancing past the last brick of a layer. -/
theorem mod_div_succ_eq (m n : Nat) (hm : 0 < m) (h : n % m = m - 1) :
    (n + 1) % m = 0 ∧ (n + 1) / m = n / m + 1 := by
  have hd := Nat.div_add_mod n m
  have hn1 : n + 1 = m * (n / m + 1) := by rw [Nat.mul_succ]; omega
  constructor
  · rw [hn1, Nat.mul_mod_right]
  · rw [hn1, Nat.mul_div_cancel_left _ hm]

/-- Advancing within a layer. -/
theorem mod_div_succ_lt (m n : Nat) (hm : 0 < m) (h : n % m ≠ m - 1) :
    (n + 1) % m = n % m + 1 ∧ (n + 1) / m = n / m := by
  have hd := Nat.div_add_mod n m
  have hlt : n % m < m := Nat.mod_lt _ hm
  have hlt2 : n % m + 1 < m := by omega
  have hn1 : n + 1 = m * (n / m) + (n % m + 1) := by omega
  constructor
  · rw [hn1, Nat.mul_add_mod, Nat.mod_eq_of_lt hlt2]
  · rw [hn1, Nat.mul_add_div hm, Nat.div_eq_of_lt hlt2, Nat.add_zero]

/-- Invariant of the planner walk: when the brick index and plan layer stand
in the closed-form relation to the number of already registered events, every
event the walk ever registers at index k carries print height
wiping_layer_height * (1 + k / modulus) and layer height wiping_layer_height. -/
theorem planner_loop_z (total vol : Int) :
    ∀ (rest rev : List PrintingPieceUPD) (prev brick layer : Int)
      (ev : List ToolChangeEvent) (tc wt : Nat) (oob : Bool),
      brick = ((ev.length % brick_modulus total : Nat) : Int) - 1 →
      layer = 1 + ((ev.length / brick_modulus total : Nat) : Int) →
      (∀ k e, ev.get? k = some e →
          e.print_z = wiping_layer_height * (1 + ((k / brick_modulus total : Nat) : Int)) ∧
          e.layer_height = wiping_layer_height) →
      ∀ k e,
        (planner_loop total vol rest rev prev brick layer ev tc wt oob).events.get? k =
            some e →
        e.print_z = wiping_layer_height * (1 + ((k / brick_modulus total : Nat) : Int)) ∧
        e.layer_height = wiping_layer_height := by
  intro rest
  induction rest with
  | nil =>
    intro rev prev brick layer ev tc wt oob hb hl hev k e hk
    exact hev k e hk
  | cons p t ih =>
    intro rev prev brick layer ev tc wt oob hb hl hev k e hk
    unfold planner_loop at hk
    split at hk
    · split at hk
      · -- a change is detected and an event is registered
        have hm : 0 < brick_modulus total := brick_modulus_pos total
        have hlen : (ev ++ [mkToolChangeEvent (wiping_layer_height * layer)
            wiping_layer_height prev p.region vol]).length = ev.length + 1 := by simp
        have hev2 : ∀ k2 e2, (ev ++ [mkToolChangeEvent (wiping_layer_height * layer)
              wiping_layer_height prev p.region vol]).get? k2 = some e2 →
            e2.print_z =
              wiping_layer_height * (1 + ((k2 / brick_modulus total : Nat) : Int)) ∧
            e2.layer_height = wiping_layer_height := by
          intro k2 e2 hk2
          rcases lt_trichotomy k2 ev.length with hcase | hcase | hcase
          · rw [List.get?_append hcase] at hk2
            exact hev k2 e2 hk2
          · subst hcase
            rw [List.get?_concat_length] at hk2
            cases hk2
            refine ⟨?_, rfl⟩
            show wiping_layer_height * layer = _
            rw [hl]
          · rw [List.get?_eq_none.mpr (by simp; omega)] at hk2
            exact Option.noConfusion hk2
        by_cases hres : ev.length % brick_modulus total = brick_modulus total - 1
        · have hcond : total - 1 ≤ brick + 1 := by
            rw [hb]
            have := (reset_test_iff total ev.length).mpr hres
            omega
          rw [if_pos hcond, if_pos hcond] at hk
          obtain ⟨hmod, hdiv⟩ := mod_div_succ_eq _ ev.length hm hres
          refine ih _ _ _ _ _ _ _ _ ?_ ?_ hev2 k e hk
          · rw [hlen, hmod]; simp
          · rw [hlen, hdiv, hl]; push_cast; ring
        · have hcond : ¬(total - 1 ≤ brick + 1) := by
            rw [hb]
            intro hcon
            exact hres ((reset_test_iff total ev.length).mp (by omega))
          rw [if_neg hcond, if_neg hcond] at hk
          obtain ⟨hmod, hdiv⟩ := mod_div_succ_lt _ ev.length hm hres
          refine ih _ _ _ _ _ _ _ _ ?_ ?_ hev2 k e hk
          · rw [hlen, hmod, hb]; push_cast; ring
          · rw [hlen, hdiv, hl]
      · exact ih _ _ _ _ _ _ _ _ hb hl hev k e hk
    · exact ih _ _ _ _ _ _ _ _ hb hl hev k e hk

/-- Claim C7, amended: every tool change the planner registers carries layer
height wiping_layer_height (0.2 mm) and print height wiping_layer_height
times the current wipe-tower layer index, which starts at 1 and advances after
every colorCount - 1 registered changes (after every change when colorCount
is at most 1); it is not wipingLayerHeight times the brick index.  The other
parts of the claim (need_wipe is set one position before the change, the tools
passed are the previous and the current region) stand as in the source. -/
theorem C7_amended (colors : Nat) (vol : Int) (final : List PrintingPieceUPD)
    (k : Nat) (e : ToolChangeEvent)
    (hk : (ATC_plan_wipe_toolchange2 colors vol final).events.get? k = some e) :
    e.print_z =
      wiping_layer_height * (1 + ((k / brick_modulus ((colors : Int) - 1) : Nat) : Int)) ∧
    e.layer_height = wiping_layer_height := by
  unfold ATC_plan_wipe_toolchange2 at hk
  exact planner_loop_z ((colors : Int) - 1) vol final [] 0 (-1) 1 [] 0 0 false
    (by simp) (by simp) (by intro k2 e2 hk2; simp at hk2) k e hk

/-- Witness for C7_amended: the single event of the store5 pipeline is at
index 0 and carries print height 2 * (1 + 0) = 2 and layer height 2 in the
fixed unit (0.2 mm). -/
theorem C7_witness :
    ((pl5.events.get? 0).getD (mkToolChangeEvent 0 0 0 0 0)).print_z =
      wiping_layer_height *
        (1 + ((0 / brick_modulus ((2 : Nat) - 1 : Int) : Nat) : Int)) ∧
    ((pl5.events.get? 0).getD (mkToolChangeEvent 0 0 0 0 0)).layer_height =
      wiping_layer_height :=
  C7_amended 2 140 fm5.1 0
    ((pl5.events.get? 0).getD (mkToolChangeEvent 0 0 0 0 0)) (by decide)

/-!  The merger characterization (claim C6).  -/

/-- The support placement scan returns the first not-yet-placed support node
whose Rlayer is at most one above the object Rlayer, marked in place. -/
theorem pick_support_some (supp : List PrintingPieceUPD) (objR : Int)
    (sp : PrintingPieceUPD) (supp2 : List PrintingPieceUPD)
    (hpick : pick_support supp objR = (some sp, supp2)) :
    ∃ l1 l2, supp = l1 ++ sp :: l2 ∧ supp2 = l1 ++ { sp with state := true } :: l2 ∧
      sp.state = false ∧ sp.Rlayer - objR ≤ 1 ∧
      ∀ q ∈ l1, ¬(q.state = false ∧ q.Rlayer - objR ≤ 1) := by
  induction supp generalizing supp2 with
  | nil => simp [pick_support] at hpick
  | cons p t ih =>
    unfold pick_support at hpick
    split at hpick
    next hcond =>
      have hsp : some p = some sp := congrArg Prod.fst hpick
      have hsupp : ({ p with state := true } :: t) = supp2 := congrArg Prod.snd hpick
      injection hsp with hsp
      subst hsp
      subst hsupp
      exact ⟨[], t, rfl, rfl, hcond.1, hcond.2, by simp⟩
    next hcond =>
      have h1 : (pick_support t objR).1 = some sp := congrArg Prod.fst hpick
      have h2 : p :: (pick_support t objR).2 = supp2 := congrArg Prod.snd hpick
      obtain ⟨l1, l2, e1, e2, e3, e4, e5⟩ := ih ((pick_support t objR).2) (by rw [← h1])
      refine ⟨p :: l1, l2, by rw [List.cons_append, ← e1], ?_, e3, e4, ?_⟩
      · rw [← h2, e2, List.cons_append]
      · intro q hq
        rcases List.mem_cons.mp hq with hq | hq
        · subst hq; exact hcond
        · exact e5 q hq

/-- Claim C6, amended: the merger walk inserts after each object Unit the
first not-yet-placed support Unit whose Rlayer is at most one above the object
Unit's Rlayer and marks it placed; the inserted support Unit inherits the
object Unit's batchId and also its regionIndex (the C++ passes the object
node's region for the support copy); it is marked as support by its support
flag, not by regionIndex -1, which only the separate support store carries. -/
theorem C6_amended (obj : PrintingPieceUPD) (rest supp : List PrintingPieceUPD)
    (a pm : Int) (cnt : Nat) (sp : PrintingPieceUPD) (supp2 : List PrintingPieceUPD)
    (hpick : pick_support supp obj.Rlayer = (some sp, supp2)) :
    (∃ l1 l2, supp = l1 ++ sp :: l2 ∧ supp2 = l1 ++ { sp with state := true } :: l2 ∧
       sp.state = false ∧ sp.Rlayer - obj.Rlayer ≤ 1 ∧
       ∀ q ∈ l1, ¬(q.state = false ∧ q.Rlayer - obj.Rlayer ≤ 1)) ∧
    (FINAL_MAP_build (obj :: rest) supp a pm cnt).1 =
      final_obj_entry obj cnt a pm :: final_supp_entry obj sp (cnt + 1) a pm ::
        (FINAL_MAP_build rest supp2 a pm (cnt + 2)).1 ∧
    (final_supp_entry obj sp (cnt + 1) a pm).support = true ∧
    (final_supp_entry obj sp (cnt + 1) a pm).batch = obj.batch ∧
    (final_supp_entry obj sp (cnt + 1) a pm).region = obj.region := by
  refine ⟨pick_support_some supp obj.Rlayer sp supp2 hpick, ?_, rfl, rfl, rfl⟩
  show (match pick_support supp obj.Rlayer with
    | (some sp, supp2) =>
      (final_obj_entry obj cnt a pm :: final_supp_entry obj sp (cnt + 1) a pm ::
        (FINAL_MAP_build rest supp2 a pm (cnt + 2)).1,
       (FINAL_MAP_build rest supp2 a pm (cnt + 2)).2)
    | (none, supp2) =>
      (final_obj_entry obj cnt a pm :: (FINAL_MAP_build rest supp2 a pm (cnt + 1)).1,
       (FINAL_MAP_build rest supp2 a pm (cnt + 1)).2)).1 = _
  rw [hpick]

/-- Witness for C6_amended: the store5 merger places the support at Rlayer 0
after the first object entry of the tagged map. -/
theorem C6_witness :
    (FINAL_MAP_build ((tagged5.get? 0).getD (mkObjNode 0 0 0 0 0) :: tagged5.tail)
        supp5 0 0 0).1 =
      final_obj_entry ((tagged5.get? 0).getD (mkObjNode 0 0 0 0 0)) 0 0 0 ::
      final_supp_entry ((tagged5.get? 0).getD (mkObjNode 0 0 0 0 0))
          (mkSupportNode 0 0) 1 0 0 ::
        (FINAL_MAP_build tagged5.tail [{ mkSupportNode 0 0 with state := true }] 0 0 2).1 :=
  (C6_amended ((tagged5.get? 0).getD (mkObjNode 0 0 0 0 0)) tagged5.tail supp5 0 0 0
    (mkSupportNode 0 0) [{ mkSupportNode 0 0 with state := true }] (by decide)).2.1

/-!  The planner counting (claim C5).  -/

/-- Region changes as the planner detects them: only entries with Blayer
different from -1 are compared, against the running previous region. -/
def objChanges : Int → List PrintingPieceUPD → Nat
  | _, [] => 0
  | prev, p :: t =>
    if p.Blayer ≠ -1 then
      (if p.region ≠ prev then 1 + objChanges p.region t else objChanges p.region t)
    else objChanges prev t

/-- Shape of the merger output: every support entry (Blayer -1) carries the
region of the running previous object entry. -/
def supports_inherit : Int → List PrintingPieceUPD → Bool
  | _, [] => true
  | prev, p :: t =>
    if p.Blayer = -1 then p.region == prev && supports_inherit prev t
    else supports_inherit p.region t

/-- On merger-shaped lists the consecutive-pair region changes are exactly the
object-only changes the planner detects. -/
theorem pairChanges_eq_objChanges :
    ∀ (l : List PrintingPieceUPD) (q : PrintingPieceUPD),
      supports_inherit q.region l = true → pairChanges (q :: l) = objChanges q.region l := by
  intro l
  induction l with
  | nil => intro q _; rfl
  | cons p t ih =>
    intro q hS
    unfold supports_inherit at hS
    by_cases hb : p.Blayer = -1
    · rw [if_pos hb] at hS
      rw [Bool.and_eq_true, beq_iff_eq] at hS
      obtain ⟨hr, hS2⟩ := hS
      show (if q.region = p.region then 0 else 1) + pairChanges (p :: t) = _
      rw [if_pos hr.symm]
      unfold objChanges
      rw [if_neg (by simp [hb])]
      have hih := ih p (by rw [hr]; exact hS2)
      rw [Nat.zero_add, hih, hr]
    · rw [if_neg hb] at hS
      have hih := ih p hS
      show (if q.region = p.region then 0 else 1) + pairChanges (p :: t) = _
      unfold objChanges
      rw [if_pos hb]
      by_cases hreg : p.region = q.region
      · rw [if_pos hreg.symm, if_neg (by simp [hreg]), Nat.zero_add, hih, hreg]
      · rw [if_neg (fun hc => hreg hc.symm), if_pos hreg, hih]

/-- Unfolding needWipeCount over a cons cell. -/
theorem needWipeCount_cons (p : PrintingPieceUPD) (l : List PrintingPieceUPD) :
    needWipeCount (p :: l) = (if p.need_wipe then 1 else 0) + needWipeCount l := by
  unfold needWipeCount
  rw [List.filter_cons]
  split
  · simp only [List.length_cons]
    omega
  · omega

/-- A clear flag does not count. -/
theorem needWipeCount_cons_false {p : PrintingPieceUPD} {l : List PrintingPieceUPD}
    (hp : p.need_wipe = false) : needWipeCount (p :: l) = needWipeCount l := by
  rw [needWipeCount_cons, hp]
  simp

/-- A set flag counts once. -/
theorem needWipeCount_cons_true {p : PrintingPieceUPD} {l : List PrintingPieceUPD}
    (hp : p.need_wipe = true) : needWipeCount (p :: l) = 1 + needWipeCount l := by
  rw [needWipeCount_cons, hp]
  simp

/-- needWipeCount is invariant under reversal. -/
theorem needWipeCount_reverse (l : List PrintingPieceUPD) :
    needWipeCount l.reverse = needWipeCount l := by
  unfold needWipeCount
  rw [List.filter_reverse, List.length_reverse]

/-- Unfolding objChanges over a cons cell. -/
theorem objChanges_cons (prev : Int) (p : PrintingPieceUPD) (t : List PrintingPieceUPD) :
    objChanges prev (p :: t) =
      if p.Blayer ≠ -1 then
        (if p.region ≠ prev then 1 + objChanges p.region t else objChanges p.region t)
      else objChanges prev t := rfl

/-- Counting invariant of the planner walk: with a nonempty processed prefix
whose head flag is clear and remaining nodes all clear, each detected change
sets exactly one clear flag, and the tool-change counter advances by the
number of detected changes. -/
theorem planner_loop_count_aux (total vol : Int) :
    ∀ (rest : List PrintingPieceUPD) (h : PrintingPieceUPD)
      (t0 : List PrintingPieceUPD) (prev brick layer : Int)
      (ev : List ToolChangeEvent) (tc wt : Nat) (oob : Bool),
      (∀ q ∈ rest, q.need_wipe = false) → h.need_wipe = false →
      needWipeCount (planner_loop total vol rest (h :: t0) prev brick layer ev tc wt
          oob).map = needWipeCount (h :: t0) + objChanges prev rest ∧
      (planner_loop total vol rest (h :: t0) prev brick layer ev tc wt
          oob).tool_change_counter = tc + objChanges prev rest := by
  intro rest
  induction rest with
  | nil =>
    intro h t0 prev brick layer ev tc wt oob _ _
    constructor
    · show needWipeCount (h :: t0).reverse = _
      rw [needWipeCount_reverse, show objChanges prev [] = 0 from rfl]
      omega
    · rfl
  | cons p t ih =>
    intro h t0 prev brick layer ev tc wt oob hall hh
    have hp : p.need_wipe = false := hall p (by simp)
    have ht : ∀ q ∈ t, q.need_wipe = false := fun q hq => hall q (by simp [hq])
    unfold planner_loop
    by_cases hb : p.Blayer ≠ -1
    · rw [if_pos hb]
      by_cases hr : p.region ≠ prev
      · rw [if_pos hr]
        simp only [write_prev_need_wipe]
        constructor
        · rw [(ih p ({ h with need_wipe := true } :: t0) p.region _ _ _ (tc + 1)
            (wt + 1) _ ht hp).1]
          rw [objChanges_cons, if_pos hb, if_pos hr]
          rw [needWipeCount_cons_false hp,
            needWipeCount_cons_true
              (show ({ h with need_wipe := true } : PrintingPieceUPD).need_wipe = true
                from rfl),
            needWipeCount_cons_false hh]
          omega
        · rw [(ih p ({ h with need_wipe := true } :: t0) p.region _ _ _ (tc + 1)
            (wt + 1) _ ht hp).2]
          rw [objChanges_cons, if_pos hb, if_pos hr]
          omega
      · rw [if_neg hr]
        obtain ⟨hc1, hc2⟩ := ih p (h :: t0) p.region brick layer ev tc wt oob ht hp
        constructor
        · rw [hc1]
          rw [objChanges_cons, if_pos hb, if_neg hr]
          rw [needWipeCount_cons_false hp]
        · rw [hc2]
          rw [objChanges_cons, if_pos hb, if_neg hr]
    · rw [if_neg hb]
      obtain ⟨hc1, hc2⟩ := ih p (h :: t0) prev brick layer ev tc wt oob ht hp
      constructor
      · rw [hc1]
        rw [objChanges_cons, if_neg hb]
        rw [needWipeCount_cons_false hp]
      · rw [hc2]
        rw [objChanges_cons, if_neg hb]

/-- Claim C5, amended: on a Final Schedule of the merger shape (first entry an
object unit, every flag initially clear, support entries inheriting the
preceding object region), the number of need_wipe entries set by the planner
always equals the number of region changes between consecutive entries; the
recorded total_toolchanges equals them exactly when the first entry's region
is 0, and exceeds them by one otherwise, because prev_region starts at 0 and
the write for a change at the very first entry lands out of range. -/
theorem C5_amended (p : PrintingPieceUPD) (t : List PrintingPieceUPD)
    (colors : Nat) (vol : Int)
    (hobj : p.Blayer ≠ -1) (hw : p.need_wipe = false)
    (hwt : ∀ q ∈ t, q.need_wipe = false)
    (hS : supports_inherit p.region t = true) :
    needWipeCount (ATC_plan_wipe_toolchange2 colors vol (p :: t)).map =
      pairChanges (p :: t) ∧
    (ATC_plan_wipe_toolchange2 colors vol (p :: t)).tool_change_counter =
      pairChanges (p :: t) + (if p.region = 0 then 0 else 1) := by
  have hbridge := pairChanges_eq_objChanges t p hS
  unfold ATC_plan_wipe_toolchange2 planner_loop
  rw [if_pos hobj]
  by_cases hr : p.region ≠ 0
  · rw [if_pos hr]
    obtain ⟨hc1, hc2⟩ := planner_loop_count_aux ((colors : Int) - 1) vol t p
      ((write_prev_need_wipe ([] : List PrintingPieceUPD)).1) p.region
      (if (colors : Int) - 1 - 1 ≤ -1 + 1 then -1 else -1 + 1)
      (if (colors : Int) - 1 - 1 ≤ -1 + 1 then 1 + 1 else 1)
      ([] ++ [mkToolChangeEvent (wiping_layer_height * 1) wiping_layer_height 0
        p.region vol]) (0 + 1) (0 + 1)
      (false || (write_prev_need_wipe ([] : List PrintingPieceUPD)).2) hwt hw
    constructor
    · rw [hc1, hbridge, needWipeCount_cons_false hw]
      rw [show needWipeCount (write_prev_need_wipe ([] : List PrintingPieceUPD)).1 = 0
        from rfl]
      omega
    · rw [hc2, hbridge, if_neg hr]
      omega
  · rw [if_neg hr]
    push_neg at hr
    obtain ⟨hc1, hc2⟩ := planner_loop_count_aux ((colors : Int) - 1) vol t p
      ([] : List PrintingPieceUPD) p.region (-1) 1 ([] : List ToolChangeEvent) 0 0 false
      hwt hw
    constructor
    · rw [hc1, hbridge, needWipeCount_cons_false hw]
      rw [show needWipeCount ([] : List PrintingPieceUPD) = 0 from rfl]
      omega
    · rw [hc2, hbridge, if_pos hr]
      omega

/-- Witness for C5_amended at the store5 final map: zero need_wipe entries,
zero pair changes, and one recorded tool change (first region is 1). -/
theorem C5_witness :
    needWipeCount (ATC_plan_wipe_toolchange2 2 140
        ((fm5.1.get? 0).getD (mkObjNode 0 0 0 0 0) :: fm5.1.tail)).map =
      pairChanges ((fm5.1.get? 0).getD (mkObjNode 0 0 0 0 0) :: fm5.1.tail) ∧
    (ATC_plan_wipe_toolchange2 2 140
        ((fm5.1.get? 0).getD (mkObjNode 0 0 0 0 0) :: fm5.1.tail)).tool_change_counter =
      pairChanges ((fm5.1.get? 0).getD (mkObjNode 0 0 0 0 0) :: fm5.1.tail) +
        (if ((fm5.1.get? 0).getD (mkObjNode 0 0 0 0 0)).region = 0 then 0 else 1) :=
  C5_amended ((fm5.1.get? 0).getD (mkObjNode 0 0 0 0 0)) fm5.1.tail 2 140
    (by decide) (by decide) (by decide) (by decide)

/-!  The scheduler invariant (claims C1 and C3): the batched map always holds
exactly the processed Units, the processed part of every region is downward
closed, and the cursor sits on the top processed layer of its region.  -/

/-- Strict creation order of the store keys: layer-major, region-minor.  The
construction scan appends nodes in exactly this order. -/
def keyLt (p q : PrintingPieceUPD) : Prop :=
  p.Blayer < q.Blayer ∨ (p.Blayer = q.Blayer ∧ p.region < q.region)

/-- A well-formed Node Store: keys strictly increasing in creation order. -/
def storeSorted (l : List PrintingPieceUPD) : Prop := l.Pairwise keyLt

/-- Whether the first node with the given key is processed. -/
def keyProcessed (l : List PrintingPieceUPD) (b r : Int) : Bool :=
  match node_search l b r with
  | some p => p.state
  | none => false

/-- Ordered keys are distinct keys. -/
theorem keys_ne_of_keyLt {p q : PrintingPieceUPD} (h : keyLt p q) :
    ¬(p.Blayer = q.Blayer ∧ p.region = q.region) := by
  unfold keyLt at h
  rintro ⟨h1, h2⟩
  rcases h with h | ⟨h3, h4⟩ <;> omega

/-- Everything before a split point is key-below it. -/
theorem sorted_split_left {l1 l2 : List PrintingPieceUPD} {p : PrintingPieceUPD}
    (hs : storeSorted (l1 ++ p :: l2)) : ∀ q ∈ l1, keyLt q p := by
  rw [storeSorted, List.pairwise_append] at hs
  exact fun q hq => hs.2.2 q hq p (by simp)

/-- Everything after a split point is key-above it. -/
theorem sorted_split_right {l1 l2 : List PrintingPieceUPD} {p : PrintingPieceUPD}
    (hs : storeSorted (l1 ++ p :: l2)) : ∀ q ∈ l2, keyLt p q := by
  rw [storeSorted, List.pairwise_append] at hs
  have h21 := hs.2.1
  rw [List.pairwise_cons] at h21
  exact h21.1

/-- Marking a node keeps the store sorted (the state field plays no role in
the order). -/
theorem storeSorted_mark {l1 l2 : List PrintingPieceUPD} {p : PrintingPieceUPD}
    (hs : storeSorted (l1 ++ p :: l2)) :
    storeSorted (l1 ++ { p with state := true } :: l2) := by
  rw [storeSorted, List.pairwise_append] at hs ⊢
  refine ⟨hs.1, ?_, ?_⟩
  · have h21 := hs.2.1
    rw [List.pairwise_cons] at h21 ⊢
    exact ⟨fun q hq => h21.1 q hq, h21.2⟩
  · intro x hx y hy
    have hxy := hs.2.2 x hx
    rcases List.mem_cons.mp hy with hy | hy
    · subst hy
      exact hxy p (by simp)
    · exact hxy y (by simp [hy])

/-- In a sorted store a key determines the node. -/
theorem sorted_key_unique {l : List PrintingPieceUPD} (hs : storeSorted l)
    {q1 q2 : PrintingPieceUPD} (h1 : q1 ∈ l) (h2 : q2 ∈ l)
    (hk : q1.Blayer = q2.Blayer ∧ q1.region = q2.region) : q1 = q2 := by
  induction l with
  | nil => exact absurd h1 (by simp)
  | cons a t ih =>
    rw [storeSorted, List.pairwise_cons] at hs
    rcases List.mem_cons.mp h1 with h1 | h1 <;> rcases List.mem_cons.mp h2 with h2 | h2
    · rw [h1, h2]
    · rw [h1] at hk
      exact absurd hk (keys_ne_of_keyLt (hs.1 q2 h2))
    · rw [h2] at hk
      exact absurd ⟨hk.1.symm, hk.2.symm⟩ (keys_ne_of_keyLt (hs.1 q1 h1))
    · exact ih hs.2 h1 h2

/-- A successful find? splits the list at the first hit. -/
theorem find_eq_some_split {α : Type} (f : α → Bool) :
    ∀ (l : List α) (p : α), l.find? f = some p →
      ∃ l1 l2, l = l1 ++ p :: l2 ∧ f p = true ∧ ∀ q ∈ l1, f q = false := by
  intro l
  induction l with
  | nil => intro p h; simp [List.find?] at h
  | cons a t ih =>
    intro p h
    by_cases ha : f a = true
    · rw [List.find?_cons_of_pos _ ha] at h
      injection h with h
      subst h
      exact ⟨[], t, rfl, ha, by simp⟩
    · rw [List.find?_cons_of_neg _ (by simp [ha])] at h
      obtain ⟨l1, l2, e1, e2, e3⟩ := ih p h
      refine ⟨a :: l1, l2, by rw [e1]; rfl, e2, ?_⟩
      intro q hq
      rcases List.mem_cons.mp hq with hq | hq
      · subst hq
        exact Bool.eq_false_iff.mpr ha
      · exact e3 q hq

/-- Marking through a split whose prefix misses the key. -/
theorem set_state1_append (l1 l2 : List PrintingPieceUPD) (p : PrintingPieceUPD)
    (b r : Int) (hk : node_key_eq p b r = true)
    (hpre : ∀ q ∈ l1, node_key_eq q b r = false) :
    set_state1 (l1 ++ p :: l2) b r = l1 ++ { p with state := true } :: l2 := by
  induction l1 with
  | nil =>
    rw [List.nil_append, List.nil_append]
    unfold set_state1
    rw [if_pos hk]
  | cons a t ih =>
    have ha := hpre a (by simp)
    rw [List.cons_append, List.cons_append]
    unfold set_state1
    rw [if_neg (by simp [ha]), ih (fun q hq => hpre q (by simp [hq]))]

/-- Searching through a split whose prefix misses the key. -/
theorem node_search_append (l1 l2 : List PrintingPieceUPD) (p : PrintingPieceUPD)
    (b r : Int) (hk : node_key_eq p b r = true)
    (hpre : ∀ q ∈ l1, node_key_eq q b r = false) :
    node_search (l1 ++ p :: l2) b r = some p := by
  induction l1 with
  | nil => rw [List.nil_append, node_search_cons, if_pos hk]
  | cons a t ih =>
    rw [List.cons_append, node_search_cons,
      if_neg (by simp [hpre a (by simp)]), ih (fun q hq => hpre q (by simp [hq]))]

/-- keyCount distributes over append. -/
theorem keyCount_append (l1 l2 : List PrintingPieceUPD) (b r : Int) :
    keyCount (l1 ++ l2) b r = keyCount l1 b r + keyCount l2 b r := by
  unfold keyCount
  rw [List.filter_append, List.length_append]

/-- keyCount of a single node. -/
theorem keyCount_singleton (e : PrintingPieceUPD) (b r : Int) :
    keyCount [e] b r = if node_key_eq e b r then 1 else 0 := by
  unfold keyCount
  rw [List.filter_cons]
  split
  · rfl
  · rfl

/-- Marking one unprocessed node raises the processed count by one. -/
theorem processedCount_mark (l1 l2 : List PrintingPieceUPD) (p : PrintingPieceUPD)
    (hp : p.state = false) :
    processedCount (l1 ++ { p with state := true } :: l2) =
      processedCount (l1 ++ p :: l2) + 1 := by
  unfold processedCount
  rw [List.filter_append, List.filter_append, List.length_append, List.length_append,
    List.filter_cons, List.filter_cons]
  simp [hp]
  omega

/-- Members of the marked list are members of the original or the marked
node. -/
theorem mem_set_split {l1 l2 : List PrintingPieceUPD} {p q : PrintingPieceUPD}
    (hq : q ∈ l1 ++ { p with state := true } :: l2) :
    q ∈ l1 ++ p :: l2 ∨ q = { p with state := true } := by
  rcases List.mem_append.mp hq with h | h
  · left; exact List.mem_append.mpr (Or.inl h)
  · rcases List.mem_cons.mp h with h | h
    · right; exact h
    · left; exact List.mem_append.mpr (Or.inr (List.mem_cons.mpr (Or.inr h)))

/-- Marking preserves list length. -/
theorem set_state1_length (l : List PrintingPieceUPD) (b r : Int) :
    (set_state1 l b r).length = l.length := by
  induction l with
  | nil => rfl
  | cons p t ih =>
    unfold set_state1
    split
    · rfl
    · simp [ih]

/-- keyLt is decidable. -/
instance (p q : PrintingPieceUPD) : Decidable (keyLt p q) := by
  unfold keyLt; exact inferInstance

/-- storeSorted is decidable. -/
instance (l : List PrintingPieceUPD) : Decidable (storeSorted l) := by
  unfold storeSorted; exact inferInstance

/-- Filtered length of a cons cell. -/
theorem filter_cons_length {α : Type} (f : α → Bool) (p : α) (t : List α) :
    (List.filter f (p :: t)).length = (if f p then 1 else 0) + (List.filter f t).length := by
  rw [List.filter_cons]
  by_cases h : f p = true
  · rw [if_pos h, if_pos h, List.length_cons]
    omega
  · rw [if_neg h, if_neg h]
    omega

/-- Filtered length of an append. -/
theorem filter_append_length {α : Type} (f : α → Bool) (l1 l2 : List α) :
    (List.filter f (l1 ++ l2)).length = (List.filter f l1).length + (List.filter f l2).length := by
  rw [List.filter_append, List.length_append]

/-- A filter keeping the whole length keeps every element. -/
theorem filter_all {α : Type} (f : α → Bool) :
    ∀ l : List α, (l.filter f).length = l.length → ∀ a ∈ l, f a = true := by
  intro l
  induction l with
  | nil => intro h a ha; exact absurd ha (by simp)
  | cons p t ih =>
    intro h a ha
    rw [filter_cons_length] at h
    by_cases hp : f p = true
    · rw [if_pos hp] at h
      rcases List.mem_cons.mp ha with ha | ha
      · rw [ha]; exact hp
      · exact ih (by rw [List.length_cons] at h; omega) a ha
    · rw [if_neg hp] at h
      have := List.length_filter_le f t
      rw [List.length_cons] at h
      omega

/-- The cursor-free part of the scheduler invariant: the store stays sorted,
the batched map holds exactly one node per processed store key and none per
unprocessed key, its size is the processed count, its entries are object
entries, and the processed part of every region is downward closed in the
batch layers. -/
def SchedInvCore (s : SchedState) : Prop :=
  storeSorted s.printing_map_initial ∧
  (∀ b r, keyCount s.printing_map_batched b r =
    if keyProcessed s.printing_map_initial b r then 1 else 0) ∧
  s.printing_map_batched.length = processedCount s.printing_map_initial ∧
  (∀ p ∈ s.printing_map_batched, p.support = false) ∧
  (∀ p ∈ s.printing_map_initial, ∀ q ∈ s.printing_map_initial,
    p.region = q.region → p.Blayer < q.Blayer → q.state = true → p.state = true)

/-- The cursor side condition: the cursor key is processed and everything
strictly above it in its region is still unprocessed. -/
def CursorProp (l : List PrintingPieceUPD) (b r : Int) : Prop :=
  keyProcessed l b r = true ∧
  ∀ q ∈ l, q.region = r → b < q.Blayer → q.state = false

/-- The full scheduler invariant. -/
def SchedInv (s : SchedState) : Prop :=
  SchedInvCore s ∧
  ∀ b r, s.last_node = some (b, r) → CursorProp s.printing_map_initial b r

/-- Central bookkeeping step: appending one entry for an unprocessed node
while marking that node preserves every cursor-free invariant component,
processes the marked key, and adds no node to the store. -/
theorem core_mark_lists (init batched : List PrintingPieceUPD)
    (e p : PrintingPieceUPD) (B R : Int)
    (hsort : storeSorted init)
    (hcount : ∀ b r, keyCount batched b r = if keyProcessed init b r then 1 else 0)
    (hlen : batched.length = processedCount init)
    (hobj : ∀ q ∈ batched, q.support = false)
    (hdown : ∀ p2 ∈ init, ∀ q ∈ init, p2.region = q.region → p2.Blayer < q.Blayer →
      q.state = true → p2.state = true)
    (hfind : node_search init B R = some p)
    (hpstate : p.state = false)
    (hdownok : ∀ q ∈ init, q.region = R → q.Blayer < B → q.state = true)
    (heB : e.Blayer = B) (heR : e.region = R) (heS : e.support = false) :
    storeSorted (set_state1 init B R) ∧
    (∀ b r, keyCount (batched ++ [e]) b r =
      if keyProcessed (set_state1 init B R) b r then 1 else 0) ∧
    (batched ++ [e]).length = processedCount (set_state1 init B R) ∧
    (∀ q ∈ batched ++ [e], q.support = false) ∧
    (∀ p2 ∈ set_state1 init B R, ∀ q ∈ set_state1 init B R,
      p2.region = q.region → p2.Blayer < q.Blayer → q.state = true → p2.state = true) ∧
    keyProcessed (set_state1 init B R) B R = true ∧
    (∀ q ∈ set_state1 init B R, q ∈ init ∨ q = { p with state := true }) := by
  obtain ⟨l1, l2, hsplit, hkp, hpre⟩ := find_eq_some_split _ init p hfind
  have hkey := node_key_eq_iff.mp hkp
  have hsort2 : storeSorted (l1 ++ p :: l2) := hsplit ▸ hsort
  have hset : set_state1 init B R = l1 ++ { p with state := true } :: l2 := by
    rw [hsplit]
    exact set_state1_append l1 l2 p B R hkp hpre
  have hproc : keyProcessed (set_state1 init B R) B R = true := by
    unfold keyProcessed
    rw [hset, node_search_append l1 l2 _ B R (by rw [node_key_eq_set]; exact hkp) hpre]
  have hmem : ∀ q ∈ set_state1 init B R, q ∈ init ∨ q = { p with state := true } := by
    intro q hq
    rw [hset] at hq
    rcases mem_set_split hq with hq | hq
    · left; rw [hsplit]; exact hq
    · right; exact hq
  refine ⟨?_, ?_, ?_, ?_, ?_, hproc, hmem⟩
  · rw [hset]
    exact storeSorted_mark hsort2
  · intro b r
    rw [keyCount_append, keyCount_singleton]
    by_cases hbr : b = B ∧ r = R
    · obtain ⟨hb, hr⟩ := hbr
      subst hb; subst hr
      have h1 : keyProcessed init b r = false := by
        unfold keyProcessed
        rw [hfind]
        exact hpstate
      have he : node_key_eq e b r = true := node_key_eq_iff.mpr ⟨heB, heR⟩
      rw [hcount b r, h1, hproc, he]
      simp
    · have h3 : keyProcessed (set_state1 init B R) b r = keyProcessed init b r := by
        unfold keyProcessed
        rw [node_search_set_state1_ne init B R b r hbr]
      have he : node_key_eq e b r = false := by
        rw [Bool.eq_false_iff]
        intro hc
        obtain ⟨h4, h5⟩ := node_key_eq_iff.mp hc
        exact hbr ⟨by rw [← h4, heB], by rw [← h5, heR]⟩
      rw [h3, hcount b r, he]
      simp
  · rw [List.length_append, hset, processedCount_mark l1 l2 p hpstate, ← hsplit, hlen]
    rfl
  · intro q hq
    rcases List.mem_append.mp hq with hq | hq
    · exact hobj q hq
    · rcases List.mem_cons.mp hq with hq | hq
      · rw [hq]; exact heS
      · exact absurd hq (by simp)
  · intro p2 hp2 q hq hreg hlt hqstate
    rcases hmem p2 hp2 with hp2 | hp2
    · rcases hmem q hq with hq2 | hq2
      · exact hdown p2 hp2 q hq2 hreg hlt hqstate
      · have hql : q.Blayer = p.Blayer := by rw [hq2]
        refine hdownok p2 hp2 ?_ ?_
        · rw [hreg]
          have : q.region = p.region := by rw [hq2]
          rw [this]
          exact hkey.2
        · rw [hql] at hlt
          rw [hkey.1] at hlt
          exact hlt
    · have : p2.state = ({ p with state := true } : PrintingPieceUPD).state := by rw [hp2]
      rw [this]

/-- The head append on an unprocessed node extends the batched map by one
object entry carrying the node's key. -/
theorem apply_head_batched_ext (env : SchedEnv) (s : SchedState) (node : PrintingPieceUPD)
    (h : node.state = false) :
    ∃ e, (apply_head env s node).printing_map_batched = s.printing_map_batched ++ [e] ∧
      e.Blayer = node.Blayer ∧ e.region = node.region ∧ e.support = false := by
  unfold apply_head
  rw [if_pos h]
  exact ⟨_, rfl, rfl, rfl, rfl⟩

/-- The head append on an unprocessed node marks its key and points the cursor
at it. -/
theorem apply_head_fields (env : SchedEnv) (s : SchedState) (node : PrintingPieceUPD)
    (h : node.state = false) :
    (apply_head env s node).printing_map_initial =
      set_state1 s.printing_map_initial node.Blayer node.region ∧
    (apply_head env s node).last_node = some (node.Blayer, node.region) := by
  unfold apply_head
  rw [if_pos h]
  exact ⟨rfl, rfl⟩

/-- The acceptance extends the batched map by one object entry carrying the
candidate key. -/
theorem apply_accept_batched_ext (env : SchedEnv) (s1 : SchedState) (curB r candB : Int)
    (c : Nat) (cand : PrintingPieceUPD) :
    ∃ e, (apply_accept env s1 curB r candB c cand).printing_map_batched =
      s1.printing_map_batched ++ [e] ∧ e.Blayer = candB ∧ e.region = r ∧ e.support = false :=
  ⟨_, rfl, rfl, rfl, rfl⟩

/-- The head append on the first unprocessed node of an invariant-satisfying
state yields an invariant-satisfying state whose cursor sits on that node. -/
theorem apply_head_state0_inv (env : SchedEnv) (s : SchedState) (node : PrintingPieceUPD)
    (hcore : SchedInvCore s)
    (hsel : node_search_state0 s.printing_map_initial = some node) :
    SchedInv (apply_head env s node) ∧
    (apply_head env s node).last_node = some (node.Blayer, node.region) := by
  obtain ⟨l1, l2, hsplit, hstate0, hpre⟩ := find_eq_some_split _ s.printing_map_initial node hsel
  have hnstate : node.state = false := by simpa using hstate0
  have hpre2 : ∀ q ∈ l1, q.state = true := by
    intro q hq
    have := hpre q hq
    simpa using this
  have hkeys : ∀ q ∈ l1, node_key_eq q node.Blayer node.region = false := by
    intro q hq
    have hql := sorted_split_left (show storeSorted (l1 ++ node :: l2) from hsplit ▸ hcore.1) q hq
    rw [Bool.eq_false_iff]
    intro hc
    exact keys_ne_of_keyLt hql (node_key_eq_iff.mp hc)
  have hfind : node_search s.printing_map_initial node.Blayer node.region = some node := by
    rw [hsplit]
    exact node_search_append l1 l2 node _ _ (node_key_eq_iff.mpr ⟨rfl, rfl⟩) hkeys
  have hnmem : node ∈ s.printing_map_initial := by rw [hsplit]; simp
  have hdownok : ∀ q ∈ s.printing_map_initial, q.region = node.region →
      q.Blayer < node.Blayer → q.state = true := by
    intro q hq hreg hlt
    rw [hsplit] at hq
    rcases List.mem_append.mp hq with hq | hq
    · exact hpre2 q hq
    · rcases List.mem_cons.mp hq with hq | hq
      · rw [hq] at hlt
        exact absurd hlt (lt_irrefl _)
      · have hql := sorted_split_right (show storeSorted (l1 ++ node :: l2) from hsplit ▸ hcore.1) q hq
        unfold keyLt at hql
        rcases hql with h1 | ⟨h1, h2⟩
        · omega
        · omega
  obtain ⟨e, hBe, heB, heR, heS⟩ := apply_head_batched_ext env s node hnstate
  obtain ⟨hIe, hLe⟩ := apply_head_fields env s node hnstate
  have hc := core_mark_lists s.printing_map_initial s.printing_map_batched e node
    node.Blayer node.region hcore.1 hcore.2.1 hcore.2.2.1 hcore.2.2.2.1 hcore.2.2.2.2
    hfind hnstate hdownok heB heR heS
  refine ⟨⟨⟨?_, ?_, ?_, ?_, ?_⟩, ?_⟩, hLe⟩
  · rw [hIe]; exact hc.1
  · intro b r
    rw [hIe, hBe]
    exact hc.2.1 b r
  · rw [hIe, hBe]
    exact hc.2.2.1
  · rw [hBe]
    exact hc.2.2.2.1
  · rw [hIe]
    exact hc.2.2.2.2.1
  · intro b r heq
    rw [hLe] at heq
    have hb : node.Blayer = b := congrArg Prod.fst (Option.some.inj heq)
    have hr : node.region = r := congrArg Prod.snd (Option.some.inj heq)
    subst hb
    subst hr
    constructor
    · rw [hIe]
      exact hc.2.2.2.2.2.1
    · intro q hq hreg hlt
      rw [hIe] at hq
      rcases hc.2.2.2.2.2.2 q hq with hq2 | hq2
      · by_contra hqs
        rw [Bool.not_eq_false] at hqs
        have hns := hcore.2.2.2.2 node hnmem q hq2 hreg.symm hlt hqs
        simp [hnstate] at hns
      · have hbl : q.Blayer = node.Blayer := by rw [hq2]
        omega

/-- The candidate block preserves the scheduler invariant when the cursor
sits on the current node. -/
theorem inner_block_inv (env : SchedEnv) (s1 : SchedState) (curB r : Int)
    (hfull : SchedInv s1) (hlast : s1.last_node = some (curB, r)) :
    SchedInv (inner_block env s1 curB r (curB + 1)) := by
  rcases inner_block_main_cases env s1 curB r (curB + 1) with (h | h) | ⟨hb, c, cand, hfc, hcand, h⟩
  · rw [h]; exact hfull
  · rw [h]
    refine ⟨hfull.1, ?_⟩
    intro b2 r2 heq
    exact absurd heq (by simp)
  · have hcp : CursorProp s1.printing_map_initial curB r := hfull.2 curB r hlast
    have hkp : node_key_eq cand (curB + 1) r = true :=
      List.find?_some (p := fun q => node_key_eq q (curB + 1) r) hcand
    have hkey := node_key_eq_iff.mp hkp
    have hmem : cand ∈ s1.printing_map_initial := List.mem_of_find?_eq_some hcand
    have hcstate : cand.state = false :=
      hcp.2 cand hmem hkey.2 (by rw [hkey.1]; omega)
    have hdownok : ∀ q ∈ s1.printing_map_initial, q.region = r →
        q.Blayer < curB + 1 → q.state = true := by
      have hp1 := hcp.1
      unfold keyProcessed at hp1
      cases hfind : node_search s1.printing_map_initial curB r with
      | none => rw [hfind] at hp1; exact absurd hp1 (by simp)
      | some nodec =>
        rw [hfind] at hp1
        have hnmem := List.mem_of_find?_eq_some hfind
        have hnkey := node_key_eq_iff.mp
          (List.find?_some (p := fun q => node_key_eq q curB r) hfind)
        intro q hq hreg hlt
        have hlt2 : q.Blayer ≤ curB := by omega
        rcases lt_or_eq_of_le hlt2 with hlt3 | heq
        · exact hfull.1.2.2.2.2 q hq nodec hnmem (by rw [hreg, hnkey.2])
            (by rw [hnkey.1]; exact hlt3) hp1
        · have hqe : q = nodec :=
            sorted_key_unique hfull.1.1 hq hnmem ⟨by rw [heq, hnkey.1], by rw [hreg, hnkey.2]⟩
          rw [hqe]
          exact hp1
    obtain ⟨e, hBe, heB, heR, heS⟩ := apply_accept_batched_ext env s1 curB r (curB + 1) c cand
    have hc := core_mark_lists s1.printing_map_initial s1.printing_map_batched e cand
      (curB + 1) r hfull.1.1 hfull.1.2.1 hfull.1.2.2.1 hfull.1.2.2.2.1 hfull.1.2.2.2.2
      hcand hcstate (fun q hq hreg hlt => hdownok q hq hreg hlt) heB heR heS
    rw [h]
    have hI : (apply_accept env s1 curB r (curB + 1) c cand).printing_map_initial =
        set_state1 s1.printing_map_initial (curB + 1) r :=
      apply_accept_initial env s1 curB r (curB + 1) c cand
    refine ⟨⟨?_, ?_, ?_, ?_, ?_⟩, ?_⟩
    · rw [hI]; exact hc.1
    · intro b2 r2
      rw [hI, hBe]
      exact hc.2.1 b2 r2
    · rw [hI, hBe]
      exact hc.2.2.1
    · rw [hBe]
      exact hc.2.2.2.1
    · rw [hI]
      exact hc.2.2.2.2.1
    · intro b2 r2 heq
      have hl2 : (apply_accept env s1 curB r (curB + 1) c cand).last_node =
          some (curB + 1, r) := rfl
      rw [hl2] at heq
      have hb2 : curB + 1 = b2 := congrArg Prod.fst (Option.some.inj heq)
      have hr2 : r = r2 := congrArg Prod.snd (Option.some.inj heq)
      subst hb2
      subst hr2
      constructor
      · rw [hI]
        exact hc.2.2.2.2.2.1
      · intro q hq hreg hlt
        rw [hI] at hq
        rcases hc.2.2.2.2.2.2 q hq with hq2 | hq2
        · exact hcp.2 q hq2 hreg (by omega)
        · have hbl : q.Blayer = cand.Blayer := by rw [hq2]
          omega

/-- The tail checks preserve the scheduler invariant. -/
theorem sched_post_inv (env : SchedEnv) (t : SchedState) (candB r : Int) (s2 : SchedState)
    (h : sched_post env t candB r = .next s2) (hinv : SchedInv t) : SchedInv s2 := by
  unfold sched_post at h
  split at h
  · cases h
    exact ⟨hinv.1, fun b2 r2 heq => absurd heq (by simp)⟩
  · split at h
    · cases h
      exact ⟨hinv.1, fun b2 r2 heq => absurd heq (by simp)⟩
    · cases h
      exact hinv

/-- The middle of the iteration preserves the scheduler invariant. -/
theorem sched_mid_inv (env : SchedEnv) (s : SchedState) (node : PrintingPieceUPD)
    (hinv : SchedInv s) (hsel : sched_select s = some node) :
    SchedInv (sched_mid env s node) := by
  have hmain : SchedInv (apply_head env s node) ∧
      (apply_head env s node).last_node = some (node.Blayer, node.region) := by
    unfold sched_select at hsel
    cases hl : s.last_node with
    | none =>
      rw [hl] at hsel
      exact apply_head_state0_inv env s node hinv.1 hsel
    | some br =>
      obtain ⟨b, r⟩ := br
      rw [hl] at hsel
      have hcp := hinv.2 b r hl
      have hkey := node_key_eq_iff.mp (List.find?_some (p := fun q => node_key_eq q b r) hsel)
      have hst : node.state = true := by
        have hp1 := hcp.1
        unfold keyProcessed at hp1
        rw [show node_search s.printing_map_initial b r = some node from hsel] at hp1
        exact hp1
      have hid : apply_head env s node = s := by
        unfold apply_head
        rw [if_neg (by simp [hst])]
      rw [hid]
      exact ⟨hinv, by rw [hl, hkey.1, hkey.2]⟩
  unfold sched_mid
  split
  · exact inner_block_inv env (apply_head env s node) node.Blayer node.region hmain.1 hmain.2
  · exact hmain.1

/-- One loop iteration preserves the scheduler invariant. -/
theorem sched_step_inv (env : SchedEnv) (s s2 : SchedState)
    (h : sched_step env s = .next s2) (hinv : SchedInv s) : SchedInv s2 := by
  obtain ⟨node, hsel, hguard, hpost⟩ := sched_step_next_form h
  exact sched_post_inv env _ _ _ s2 hpost (sched_mid_inv env s node hinv hsel)

/-- The initial state of the main loop satisfies the invariant on a sorted
all-unprocessed store. -/
theorem init_state_inv (store : List PrintingPieceUPD)
    (hs : storeSorted store) (hall : ∀ p ∈ store, p.state = false) :
    SchedInv (init_state store) := by
  refine ⟨⟨hs, ?_, ?_, ?_, ?_⟩, ?_⟩
  · intro b r
    have h1 : keyProcessed store b r = false := by
      unfold keyProcessed
      cases hf : node_search store b r with
      | none => rfl
      | some p => exact hall p (List.mem_of_find?_eq_some hf)
    rw [show (init_state store).printing_map_initial = store from rfl, h1]
    show keyCount [] b r = if (false : Bool) then 1 else 0
    rfl
  · show (0 : Nat) = processedCount store
    unfold processedCount
    rw [List.filter_eq_nil.mpr (fun p hp => by simp [hall p hp])]
    rfl
  · intro p hp
    exact absurd hp (by simp [init_state])
  · intro p hp q hq hreg hlt hqs
    exact absurd hqs (by simp [hall q hq])
  · intro b r heq
    exact absurd heq (by rw [show (init_state store).last_node = none from rfl]; simp)

/-- A done result means the loop guard failed. -/
theorem sched_step_done_guard {env : SchedEnv} {s : SchedState}
    (h : sched_step env s = .done) :
    ¬ s.printing_map_batched.length < s.printing_map_initial.length := by
  intro hguard
  unfold sched_step at h
  rw [if_pos hguard] at h
  cases hsel : sched_select s with
  | none =>
    rw [hsel] at h
    exact StepRes.noConfusion h
  | some node =>
    rw [hsel] at h
    have h2 : sched_post env (sched_mid env s node) (node.Blayer + 1) node.region = .done := h
    unfold sched_post at h2
    split at h2
    · exact StepRes.noConfusion h2
    · split at h2
      · exact StepRes.noConfusion h2
      · exact StepRes.noConfusion h2

/-- A completed run from an invariant-satisfying state ends in an
invariant-satisfying state whose loop guard fails. -/
theorem sched_run_inv (env : SchedEnv) :
    ∀ (n : Nat) (s sf : SchedState), sched_run env n s = some sf → SchedInv s →
      SchedInv sf ∧ ¬ sf.printing_map_batched.length < sf.printing_map_initial.length := by
  intro n
  induction n with
  | zero => intro s sf h; exact absurd h (by simp [sched_run])
  | succ n ih =>
    intro s sf h hinv
    unfold sched_run at h
    cases hstep : sched_step env s with
    | done =>
      rw [hstep] at h
      have hs : s = sf := Option.some.inj h
      rw [← hs]
      exact ⟨hinv, sched_step_done_guard hstep⟩
    | stuck =>
      rw [hstep] at h
      exact absurd h (by simp)
    | next s3 =>
      rw [hstep] at h
      exact ih s3 sf h (sched_step_inv env s s3 hstep hinv)

/-- The (Blayer, region) keys of a node list, in order. -/
def keyList (l : List PrintingPieceUPD) : List (Int × Int) :=
  l.map (fun p => (p.Blayer, p.region))

/-- Marking keeps the store keys. -/
theorem set_state1_keyList (l : List PrintingPieceUPD) (b r : Int) :
    keyList (set_state1 l b r) = keyList l := by
  induction l with
  | nil => rfl
  | cons p t ih =>
    unfold set_state1
    split
    · rfl
    · show (p.Blayer, p.region) :: keyList (set_state1 t b r) = _
      rw [ih]
      rfl

/-- One loop iteration keeps the store keys. -/
theorem sched_step_keyList {env : SchedEnv} {s s2 : SchedState}
    (h : sched_step env s = .next s2) :
    keyList s2.printing_map_initial = keyList s.printing_map_initial := by
  obtain ⟨node, hsel, hguard, hpost⟩ := sched_step_next_form h
  rw [(sched_post_next hpost).2.2.1]
  have h2 : keyList (sched_mid env s node).printing_map_initial =
      keyList (apply_head env s node).printing_map_initial := by
    unfold sched_mid
    split
    · rcases inner_block_main_cases env (apply_head env s node) node.Blayer node.region
        (node.Blayer + 1) with (hc | hc) | ⟨-, c, cand, -, -, hc⟩
      · rw [hc]
      · rw [hc]
      · rw [hc, apply_accept_initial, set_state1_keyList]
    · rfl
  rw [h2]
  rcases apply_head_initial env s node with hc | hc
  · rw [hc]
  · rw [hc, set_state1_keyList]

/-- A completed run keeps the store keys. -/
theorem sched_run_keyList (env : SchedEnv) :
    ∀ (n : Nat) (s sf : SchedState), sched_run env n s = some sf →
      keyList sf.printing_map_initial = keyList s.printing_map_initial := by
  intro n
  induction n with
  | zero => intro s sf h; exact absurd h (by simp [sched_run])
  | succ n ih =>
    intro s sf h
    unfold sched_run at h
    cases hstep : sched_step env s with
    | done =>
      rw [hstep] at h
      rw [← Option.some.inj h]
    | stuck =>
      rw [hstep] at h
      exact absurd h (by simp)
    | next s3 =>
      rw [hstep] at h
      rw [ih s3 sf h, sched_step_keyList hstep]

/-- The key list has the length of the store. -/
theorem keyList_length (l : List PrintingPieceUPD) : (keyList l).length = l.length :=
  List.length_map _ _

/-- Claim C1, amended: on a well-formed store (keys strictly increasing in
creation order, all Units unprocessed, as the construction scan produces),
whenever the main while loop of layer_batch_labeling terminates, the batched
map holds exactly as many Units as the store, so every Unit was scheduled;
the unconditional-termination part of the claim is refuted by
C1_counterexample, where the loop runs forever, so termination is here a
hypothesis rather than a conclusion. -/
theorem C1_amended (env : SchedEnv) (store : List PrintingPieceUPD) (n : Nat)
    (sf : SchedState) (hs : storeSorted store) (hall : ∀ p ∈ store, p.state = false)
    (hrun : sched_run env n (init_state store) = some sf) :
    sf.printing_map_batched.length = store.length := by
  obtain ⟨hinv, hguard⟩ := sched_run_inv env n _ sf hrun (init_state_inv store hs hall)
  have hkl := sched_run_keyList env n _ sf hrun
  have hlen : sf.printing_map_initial.length = store.length := by
    have hcl := congrArg List.length hkl
    rw [keyList_length, keyList_length] at hcl
    exact hcl
  have hA2 := hinv.1.2.2.1
  have hle : processedCount sf.printing_map_initial ≤ sf.printing_map_initial.length :=
    List.length_filter_le _ _
  omega

/-- Witness for C1_amended: the three-color eight-layer input runs to
completion and its batched map indeed reaches the store size. -/
theorem C1_amended_witness :
    storeSorted store4 ∧ (∀ p ∈ store4, p.state = false) ∧
    sf4.printing_map_batched.length = store4.length :=
  ⟨by decide, by decide, C1_amended env4 store4 40 sf4 (by decide) (by decide) (by decide)⟩

/-- The batch tagging pass keeps the object-key counts (it only rewrites the
batch field). -/
theorem analyze_objKeyCount :
    ∀ (l : List PrintingPieceUPD) (running lastR : Int) (tc : Nat) (b r : Int),
      objKeyCount (analyze_batches_from l running lastR tc).1 b r = objKeyCount l b r := by
  intro l
  induction l with
  | nil => intro running lastR tc b r; rfl
  | cons p t ih =>
    intro running lastR tc b r
    by_cases hc : (p.region != lastR) = true
    · have hred : (analyze_batches_from (p :: t) running lastR tc).1 =
          { p with batch := running + 1 } ::
            (analyze_batches_from t (running + 1) p.region (tc + 1)).1 := by
        conv_lhs => rw [analyze_batches_from]
        rw [if_pos hc]
      rw [hred]
      unfold objKeyCount
      rw [filter_cons_length, filter_cons_length]
      have hsame : (!({ p with batch := running + 1 } : PrintingPieceUPD).support &&
          node_key_eq { p with batch := running + 1 } b r) =
          (!p.support && node_key_eq p b r) := rfl
      rw [hsame]
      have hih := ih (running + 1) p.region (tc + 1) b r
      unfold objKeyCount at hih
      omega
    · have hred : (analyze_batches_from (p :: t) running lastR tc).1 =
          { p with batch := running } :: (analyze_batches_from t running lastR tc).1 := by
        conv_lhs => rw [analyze_batches_from]
        rw [if_neg hc]
      rw [hred]
      unfold objKeyCount
      rw [filter_cons_length, filter_cons_length]
      have hsame : (!({ p with batch := running } : PrintingPieceUPD).support &&
          node_key_eq { p with batch := running } b r) =
          (!p.support && node_key_eq p b r) := rfl
      rw [hsame]
      have hih := ih running lastR tc b r
      unfold objKeyCount at hih
      omega

/-- The batch tagging pass keeps the object flag of every entry. -/
theorem analyze_support_false :
    ∀ (l : List PrintingPieceUPD) (running lastR : Int) (tc : Nat),
      (∀ p ∈ l, p.support = false) →
      ∀ q ∈ (analyze_batches_from l running lastR tc).1, q.support = false := by
  intro l
  induction l with
  | nil =>
    intro running lastR tc h q hq
    exact absurd hq (by simp [analyze_batches_from])
  | cons p t ih =>
    intro running lastR tc h q hq
    by_cases hc : (p.region != lastR) = true
    · have hred : (analyze_batches_from (p :: t) running lastR tc).1 =
          { p with batch := running + 1 } ::
            (analyze_batches_from t (running + 1) p.region (tc + 1)).1 := by
        conv_lhs => rw [analyze_batches_from]
        rw [if_pos hc]
      rw [hred] at hq
      rcases List.mem_cons.mp hq with hq | hq
      · rw [hq]
        exact h p (by simp)
      · exact ih (running + 1) p.region (tc + 1) (fun x hx => h x (by simp [hx])) q hq
    · have hred : (analyze_batches_from (p :: t) running lastR tc).1 =
          { p with batch := running } :: (analyze_batches_from t running lastR tc).1 := by
        conv_lhs => rw [analyze_batches_from]
        rw [if_neg hc]
      rw [hred] at hq
      rcases List.mem_cons.mp hq with hq | hq
      · rw [hq]
        exact h p (by simp)
      · exact ih running lastR tc (fun x hx => h x (by simp [hx])) q hq

/-- On a list of object entries the object-key count is the key count. -/
theorem objKeyCount_eq_keyCount (l : List PrintingPieceUPD) (b r : Int)
    (h : ∀ q ∈ l, q.support = false) :
    objKeyCount l b r = keyCount l b r := by
  induction l with
  | nil => rfl
  | cons p t ih =>
    unfold objKeyCount keyCount
    rw [filter_cons_length, filter_cons_length]
    have hp : (!p.support && node_key_eq p b r) = node_key_eq p b r := by
      rw [h p (by simp)]
      simp
    rw [hp]
    have ht := ih (fun q hq => h q (by simp [hq]))
    unfold objKeyCount keyCount at ht
    omega

/-- A failed support pick leaves the support map unchanged. -/
theorem pick_support_none :
    ∀ (supp : List PrintingPieceUPD) (objR : Int) (supp2 : List PrintingPieceUPD),
      pick_support supp objR = (none, supp2) → supp2 = supp := by
  intro supp
  induction supp with
  | nil =>
    intro objR supp2 h
    exact (congrArg Prod.snd h).symm
  | cons p t ih =>
    intro objR supp2 h
    unfold pick_support at h
    split at h
    · exact absurd (congrArg Prod.fst h) (by simp)
    · have h1 : (pick_support t objR).1 = none := congrArg Prod.fst h
      have h2 : p :: (pick_support t objR).2 = supp2 := congrArg Prod.snd h
      rw [← h2, ih objR (pick_support t objR).2 (by rw [← h1])]

/-- The merger keeps the object-key counts of the batched walk: inserted
support copies never carry the object flag and object copies keep their key. -/
theorem final_objKeyCount :
    ∀ (objs supp : List PrintingPieceUPD) (a pm : Int) (cnt : Nat) (b r : Int),
      (∀ o ∈ objs, o.support = false) →
      objKeyCount (FINAL_MAP_build objs supp a pm cnt).1 b r = objKeyCount objs b r := by
  intro objs
  induction objs with
  | nil => intro supp a pm cnt b r h; rfl
  | cons obj rest ih =>
    intro supp a pm cnt b r h
    have d3 : (!obj.support && node_key_eq obj b r) = node_key_eq obj b r := by
      rw [h obj (by simp)]
      simp
    cases hpick0 : pick_support supp obj.Rlayer with
    | mk osp supp2 =>
      cases osp with
      | some sp =>
        have hred : (FINAL_MAP_build (obj :: rest) supp a pm cnt).1 =
            final_obj_entry obj cnt a pm :: final_supp_entry obj sp (cnt + 1) a pm ::
              (FINAL_MAP_build rest supp2 a pm (cnt + 2)).1 := by
          conv_lhs => rw [FINAL_MAP_build]
          rw [hpick0]
        rw [hred]
        unfold objKeyCount
        rw [filter_cons_length, filter_cons_length, filter_cons_length]
        have d1 : (!(final_obj_entry obj cnt a pm).support &&
            node_key_eq (final_obj_entry obj cnt a pm) b r) = node_key_eq obj b r := rfl
        have d2 : (!(final_supp_entry obj sp (cnt + 1) a pm).support &&
            node_key_eq (final_supp_entry obj sp (cnt + 1) a pm) b r) = false := rfl
        rw [d1, d2, d3]
        have hih := ih supp2 a pm (cnt + 2) b r (fun o ho => h o (by simp [ho]))
        unfold objKeyCount at hih
        simp only [Bool.false_eq_true, if_false]
        omega
      | none =>
        have hred : (FINAL_MAP_build (obj :: rest) supp a pm cnt).1 =
            final_obj_entry obj cnt a pm ::
              (FINAL_MAP_build rest supp2 a pm (cnt + 1)).1 := by
          conv_lhs => rw [FINAL_MAP_build]
          rw [hpick0]
        rw [hred]
        unfold objKeyCount
        rw [filter_cons_length, filter_cons_length]
        have d1 : (!(final_obj_entry obj cnt a pm).support &&
            node_key_eq (final_obj_entry obj cnt a pm) b r) = node_key_eq obj b r := rfl
        rw [d1, d3]
        have hih := ih supp2 a pm (cnt + 1) b r (fun o ho => h o (by simp [ho]))
        unfold objKeyCount at hih
        omega

/-- Support conservation through the merger: the support entries inserted into
FINAL_MAP at a given Rlayer and the placeable support nodes left in the
returned support map exactly use up the placeable support nodes that went
in. -/
theorem final_supp_conservation :
    ∀ (objs supp : List PrintingPieceUPD) (a pm : Int) (cnt : Nat) (rl : Int),
      supportCountRl (FINAL_MAP_build objs supp a pm cnt).1 rl +
        unplacedCountRl (FINAL_MAP_build objs supp a pm cnt).2 rl =
      unplacedCountRl supp rl := by
  intro objs
  induction objs with
  | nil =>
    intro supp a pm cnt rl
    show supportCountRl [] rl + unplacedCountRl supp rl = unplacedCountRl supp rl
    simp [supportCountRl]
  | cons obj rest ih =>
    intro supp a pm cnt rl
    cases hpick0 : pick_support supp obj.Rlayer with
    | mk osp supp2 =>
      cases osp with
      | some sp =>
        have hred1 : (FINAL_MAP_build (obj :: rest) supp a pm cnt).1 =
            final_obj_entry obj cnt a pm :: final_supp_entry obj sp (cnt + 1) a pm ::
              (FINAL_MAP_build rest supp2 a pm (cnt + 2)).1 := by
          conv_lhs => rw [FINAL_MAP_build]
          rw [hpick0]
        have hred2 : (FINAL_MAP_build (obj :: rest) supp a pm cnt).2 =
            (FINAL_MAP_build rest supp2 a pm (cnt + 2)).2 := by
          conv_lhs => rw [FINAL_MAP_build]
          rw [hpick0]
        obtain ⟨l1, l2, he1, he2, hst, hle, hpre⟩ :=
          pick_support_some supp obj.Rlayer sp supp2 hpick0
        have hcount : unplacedCountRl supp rl =
            unplacedCountRl supp2 rl + (if sp.Rlayer == rl then 1 else 0) := by
          rw [he1, he2]
          unfold unplacedCountRl
          rw [filter_append_length, filter_append_length,
            filter_cons_length, filter_cons_length]
          have c1 : (!sp.state && sp.Rlayer == rl) = (sp.Rlayer == rl) := by
            rw [hst]
            simp
          have c2 : (!({ sp with state := true } : PrintingPieceUPD).state &&
              ({ sp with state := true } : PrintingPieceUPD).Rlayer == rl) = false := rfl
          rw [c1, c2]
          simp only [Bool.false_eq_true, if_false]
          omega
        rw [hred1, hred2]
        unfold supportCountRl
        rw [filter_cons_length, filter_cons_length]
        have d1 : ((final_obj_entry obj cnt a pm).support &&
            (final_obj_entry obj cnt a pm).Rlayer == rl) = false := rfl
        have d2 : ((final_supp_entry obj sp (cnt + 1) a pm).support &&
            (final_supp_entry obj sp (cnt + 1) a pm).Rlayer == rl) = (sp.Rlayer == rl) := rfl
        rw [d1, d2]
        have hih := ih supp2 a pm (cnt + 2) rl
        unfold supportCountRl at hih
        rw [hcount]
        simp only [Bool.false_eq_true, if_false]
        omega
      | none =>
        have hsupp2 : supp2 = supp := pick_support_none supp obj.Rlayer supp2 hpick0
        have hred1 : (FINAL_MAP_build (obj :: rest) supp a pm cnt).1 =
            final_obj_entry obj cnt a pm ::
              (FINAL_MAP_build rest supp2 a pm (cnt + 1)).1 := by
          conv_lhs => rw [FINAL_MAP_build]
          rw [hpick0]
        have hred2 : (FINAL_MAP_build (obj :: rest) supp a pm cnt).2 =
            (FINAL_MAP_build rest supp2 a pm (cnt + 1)).2 := by
          conv_lhs => rw [FINAL_MAP_build]
          rw [hpick0]
        rw [hred1, hred2]
        unfold supportCountRl
        rw [filter_cons_length]
        have d1 : ((final_obj_entry obj cnt a pm).support &&
            (final_obj_entry obj cnt a pm).Rlayer == rl) = false := rfl
        rw [d1]
        have hih := ih supp2 a pm (cnt + 1) rl
        unfold supportCountRl at hih
        rw [← hsupp2]
        simp only [Bool.false_eq_true, if_false]
        omega

/-- Claim C3, amended: on a well-formed store (keys strictly increasing in
creation order, all Units unprocessed), for every terminating run of the main
loop the FINAL_MAP produced by the tagging pass and the merger holds exactly
one object entry per store Unit, and at most as many support entries per
Rlayer as the support map had unplaced nodes at that Rlayer (so each support
Unit is attached at most once); support Units with no adjacent object Unit
are simply left unplaced rather than appended at the end of a batch, refuting
the every-support-exactly-once part of the claim (C3_counterexample). -/
theorem C3_amended (env : SchedEnv) (store supp : List PrintingPieceUPD) (n : Nat)
    (sf : SchedState) (a pm : Int)
    (hs : storeSorted store) (hall : ∀ p ∈ store, p.state = false)
    (hrun : sched_run env n (init_state store) = some sf) :
    (∀ p ∈ store, objKeyCount
        (FINAL_MAP_build (analyze_batches sf.printing_map_batched).1 supp a pm 0).1
        p.Blayer p.region = 1) ∧
    ∀ rl : Int, supportCountRl
        (FINAL_MAP_build (analyze_batches sf.printing_map_batched).1 supp a pm 0).1 rl ≤
      unplacedCountRl supp rl := by
  obtain ⟨hinv, hguard⟩ := sched_run_inv env n _ sf hrun (init_state_inv store hs hall)
  constructor
  · intro p hp
    have hobjb : ∀ q ∈ sf.printing_map_batched, q.support = false := hinv.1.2.2.2.1
    have hobjt : ∀ q ∈ (analyze_batches sf.printing_map_batched).1, q.support = false :=
      analyze_support_false sf.printing_map_batched 0 0 0 hobjb
    rw [final_objKeyCount (analyze_batches sf.printing_map_batched).1 supp a pm 0
      p.Blayer p.region hobjt]
    rw [show analyze_batches sf.printing_map_batched =
      analyze_batches_from sf.printing_map_batched 0 0 0 from rfl]
    rw [analyze_objKeyCount sf.printing_map_batched 0 0 0 p.Blayer p.region]
    rw [objKeyCount_eq_keyCount sf.printing_map_batched p.Blayer p.region hobjb]
    rw [hinv.1.2.1 p.Blayer p.region]
    have hA2 := hinv.1.2.2.1
    have hkl := sched_run_keyList env n _ sf hrun
    have hlen : sf.printing_map_initial.length = store.length := by
      have hcl := congrArg List.length hkl
      rw [keyList_length, keyList_length] at hcl
      exact hcl
    have hple : processedCount sf.printing_map_initial ≤ sf.printing_map_initial.length :=
      List.length_filter_le _ _
    have hpc : processedCount sf.printing_map_initial = sf.printing_map_initial.length := by
      omega
    have hallp : ∀ q ∈ sf.printing_map_initial, q.state = true :=
      filter_all _ sf.printing_map_initial hpc
    have hproc : keyProcessed sf.printing_map_initial p.Blayer p.region = true := by
      unfold keyProcessed
      cases hf : node_search sf.printing_map_initial p.Blayer p.region with
      | some q0 => exact hallp q0 (List.mem_of_find?_eq_some hf)
      | none =>
        exfalso
        have hk1 : (p.Blayer, p.region) ∈ keyList sf.printing_map_initial := by
          rw [hkl]
          exact List.mem_map.mpr ⟨p, hp, rfl⟩
        obtain ⟨q, hq, hqk⟩ := List.mem_map.mp hk1
        have hnone := List.find?_eq_none.mp hf q hq
        apply hnone
        have hqk2 : (q.Blayer, q.region) = (p.Blayer, p.region) := hqk
        injection hqk2 with h1 h2
        exact node_key_eq_iff.mpr ⟨h1, h2⟩
    rw [hproc]
    rfl
  · intro rl
    have hcons := final_supp_conservation (analyze_batches sf.printing_map_batched).1
      supp a pm 0 rl
    omega

/-- Witness for C3_amended: the one-object two-support input runs to
completion; its FINAL_MAP holds the single store key exactly once and its
support entries stay within the unplaced support counts. -/
theorem C3_amended_witness :
    storeSorted store3 ∧ (∀ p ∈ store3, p.state = false) ∧
    ((∀ p ∈ store3, objKeyCount
        (FINAL_MAP_build (analyze_batches sf3.printing_map_batched).1 supp3 0 0 0).1
        p.Blayer p.region = 1) ∧
     ∀ rl : Int, supportCountRl
        (FINAL_MAP_build (analyze_batches sf3.printing_map_batched).1 supp3 0 0 0).1 rl ≤
      unplacedCountRl supp3 rl) :=
  ⟨by decide, by decide,
    C3_amended env3 store3 supp3 10 sf3 0 0 (by decide) (by decide) (by decide)⟩

end ATCSched
